import Mathlib

/-!
# Verification of the pysat test-instrument data-generation subsystem

Shallow embedding of the fake file-catalog generator, the synthetic signal
generator, the sample-index builder (`pysat/instruments/methods/testing.py`),
the 2-D xarray test instrument's `load`
(`pysat/instruments/pysat_testing2d_xarray.py`), and the CDAWeb download
loop (`pysat/instruments/nasa_cdaweb_methods.py`), together with proofs of
the specified properties.

Dates are modelled as proleptic-Gregorian (year, month, day) triples, with
pandas' `DateOffset` calendar arithmetic (year/month shifts clamp the day of
month to the target month's length) made explicit.
-/

namespace Pysat

/-- A calendar date, as used by `pandas.Timestamp` at daily granularity. -/
structure Date where
  year : Nat
  month : Nat
  day : Nat
deriving DecidableEq, Repr, Inhabited

/-- Gregorian leap-year test. -/
def isLeap (y : Nat) : Bool :=
  (y % 4 == 0 && y % 100 != 0) || (y % 400 == 0)

/-- Number of days in a month of a given year (0 for an invalid month). -/
def daysInMonth (y m : Nat) : Nat :=
  match m with
  | 1 => 31
  | 2 => if isLeap y then 29 else 28
  | 3 => 31
  | 4 => 30
  | 5 => 31
  | 6 => 30
  | 7 => 31
  | 8 => 31
  | 9 => 30
  | 10 => 31
  | 11 => 30
  | 12 => 31
  | _ => 0

/-- A valid Gregorian date. -/
def Valid (d : Date) : Prop :=
  1 ≤ d.year ∧ 1 ≤ d.month ∧ d.month ≤ 12 ∧ 1 ≤ d.day ∧
    d.day ≤ daysInMonth d.year d.month

instance (d : Date) : Decidable (Valid d) := by
  unfold Valid; infer_instance

/-- Calendar successor of a date (`+ 1 day`). -/
def nextDay (d : Date) : Date :=
  if d.day < daysInMonth d.year d.month then ⟨d.year, d.month, d.day + 1⟩
  else if d.month < 12 then ⟨d.year, d.month + 1, 1⟩
  else ⟨d.year + 1, 1, 1⟩

/-- Calendar predecessor of a date (`- 1 day`, pandas `DateOffset(days=1)`
subtraction). -/
def prevDay (d : Date) : Date :=
  if 1 < d.day then ⟨d.year, d.month, d.day - 1⟩
  else if 1 < d.month then ⟨d.year, d.month - 1, daysInMonth d.year (d.month - 1)⟩
  else ⟨d.year - 1, 12, 31⟩

/-- pandas `DateOffset(years=k)` addition: shift the year, clamping the day
of month to the target month's length (Feb 29 rolls back to Feb 28). -/
def addYears (d : Date) (k : Nat) : Date :=
  ⟨d.year + k, d.month, min d.day (daysInMonth (d.year + k) d.month)⟩

/-- pandas `DateOffset(years=k)` subtraction, with the same day clamping. -/
def subYears (d : Date) (k : Nat) : Date :=
  ⟨d.year - k, d.month, min d.day (daysInMonth (d.year - k) d.month)⟩

/-- pandas `DateOffset(months=k)` addition: shift the month with carry into
the year, clamping the day of month to the target month's length. -/
def addMonths (d : Date) (k : Nat) : Date :=
  let t := d.month - 1 + k
  let y := d.year + t / 12
  let m := t % 12 + 1
  ⟨y, m, min d.day (daysInMonth y m)⟩

/-- Count of leap years in `[1, y]`. -/
def leapsLe (y : Nat) : Nat := y / 4 - y / 100 + y / 400

/-- Days in the year strictly before month `m` (common-year table). -/
def daysBeforeMonth0 (m : Nat) : Nat :=
  match m with
  | 1 => 0
  | 2 => 31
  | 3 => 59
  | 4 => 90
  | 5 => 120
  | 6 => 151
  | 7 => 181
  | 8 => 212
  | 9 => 243
  | 10 => 273
  | 11 => 304
  | 12 => 334
  | _ => 0

/-- Days in year `y` strictly before month `m`. -/
def daysBeforeMonth (y m : Nat) : Nat :=
  daysBeforeMonth0 m + (if 3 ≤ m ∧ isLeap y then 1 else 0)

/-- Day number of a date (a rata-die style linear day count). -/
def rataDie (d : Date) : Nat :=
  365 * (d.year - 1) + leapsLe (d.year - 1) +
    daysBeforeMonth d.year d.month + d.day

/-- Linear key realizing the lexicographic (year, month, day) order for
valid dates. -/
def dkey (d : Date) : Nat := d.year * 512 + d.month * 32 + d.day

/-- Month-length table, parametric in the leap flag. -/
def dimB (b : Bool) (m : Nat) : Nat :=
  match m with
  | 1 => 31
  | 2 => if b then 29 else 28
  | 3 => 31
  | 4 => 30
  | 5 => 31
  | 6 => 30
  | 7 => 31
  | 8 => 31
  | 9 => 30
  | 10 => 31
  | 11 => 30
  | 12 => 31
  | _ => 0

/-- Days-before-month table, parametric in the leap flag. -/
def dbmB (b : Bool) (m : Nat) : Nat :=
  daysBeforeMonth0 m + (if 3 ≤ m ∧ b then 1 else 0)

lemma daysInMonth_eq_dimB (y m : Nat) : daysInMonth y m = dimB (isLeap y) m := by
  unfold daysInMonth dimB; rfl

lemma daysBeforeMonth_eq_dbmB (y m : Nat) :
    daysBeforeMonth y m = dbmB (isLeap y) m := rfl

lemma dimB_le_31 : ∀ b : Bool, ∀ m < 13, dimB b m ≤ 31 := by decide

lemma one_le_dimB : ∀ b : Bool, ∀ m < 13, 1 ≤ m → 1 ≤ dimB b m := by decide

lemma dbmB_succ : ∀ b : Bool, ∀ m < 12, 1 ≤ m →
    dbmB b (m + 1) = dbmB b m + dimB b m := by decide

lemma dbmB_add_le : ∀ b : Bool, ∀ m < 13, 1 ≤ m → ∀ dd < 32,
    dd ≤ dimB b m → dbmB b m + dd ≤ 365 + (if b then 1 else 0) := by decide

lemma dbmB_mono : ∀ b : Bool, ∀ m < 13, ∀ m' < 13, m ≤ m' →
    dbmB b m ≤ dbmB b m' := by decide

lemma one_le_daysInMonth {y m : Nat} (h1 : 1 ≤ m) (h2 : m ≤ 12) :
    1 ≤ daysInMonth y m := by
  rw [daysInMonth_eq_dimB]; exact one_le_dimB (isLeap y) m (by omega) h1

lemma daysInMonth_le_31 {y m : Nat} (h2 : m ≤ 12) : daysInMonth y m ≤ 31 := by
  rw [daysInMonth_eq_dimB]; exact dimB_le_31 (isLeap y) m (by omega)

/-- One more leap year is counted when stepping from `y` to `y + 1` exactly
when `y + 1` is itself a leap year. -/
lemma isLeap_iff (y : Nat) :
    isLeap y = true ↔ (y % 4 = 0 ∧ y % 100 ≠ 0) ∨ y % 400 = 0 := by
  unfold isLeap
  simp [Bool.or_eq_true, Bool.and_eq_true, beq_iff_eq, bne_iff_ne]

lemma leapsLe_succ (y : Nat) :
    leapsLe (y + 1) = leapsLe y + (if isLeap (y + 1) then 1 else 0) := by
  unfold leapsLe
  by_cases h : isLeap (y + 1) = true
  · rw [if_pos h]
    have h2 := (isLeap_iff (y + 1)).mp h
    omega
  · rw [if_neg h]
    have h2 : ¬(((y + 1) % 4 = 0 ∧ (y + 1) % 100 ≠ 0) ∨ (y + 1) % 400 = 0) :=
      fun hc => h ((isLeap_iff (y + 1)).mpr hc)
    omega

lemma leapsLe_mono : Monotone leapsLe := by
  have h : ∀ n, leapsLe n ≤ leapsLe (n + 1) := by
    intro n; rw [leapsLe_succ]; split <;> omega
  exact monotone_nat_of_le_succ h

lemma leapsLe_of_pos {y : Nat} (hy : 1 ≤ y) :
    leapsLe y = leapsLe (y - 1) + (if isLeap y then 1 else 0) := by
  obtain ⟨z, rfl⟩ : ∃ z, y = z + 1 := ⟨y - 1, by omega⟩
  simpa using leapsLe_succ z

lemma valid_mk (y m dd : Nat) :
    Valid ⟨y, m, dd⟩ ↔
      1 ≤ y ∧ 1 ≤ m ∧ m ≤ 12 ∧ 1 ≤ dd ∧ dd ≤ daysInMonth y m := Iff.rfl

lemma nextDay_mk (y m dd : Nat) :
    nextDay ⟨y, m, dd⟩ =
      if dd < daysInMonth y m then ⟨y, m, dd + 1⟩
      else if m < 12 then ⟨y, m + 1, 1⟩ else ⟨y + 1, 1, 1⟩ := rfl

lemma rataDie_mk (y m dd : Nat) :
    rataDie ⟨y, m, dd⟩ =
      365 * (y - 1) + leapsLe (y - 1) + daysBeforeMonth y m + dd := rfl

lemma dkey_mk (y m dd : Nat) : dkey ⟨y, m, dd⟩ = y * 512 + m * 32 + dd := rfl

lemma dbmB_one : ∀ b : Bool, dbmB b 1 = 0 := by decide

lemma dimB_twelve : ∀ b : Bool, dimB b 12 = 31 := by decide

lemma dbmB_twelve : ∀ b : Bool, dbmB b 12 = 334 + (if b = true then 1 else 0) := by
  decide

lemma valid_nextDay {d : Date} (h : Valid d) : Valid (nextDay d) := by
  obtain ⟨y, m, dd⟩ := d
  rw [valid_mk] at h
  obtain ⟨hy, hm1, hm2, hd1, hd2⟩ := h
  rw [nextDay_mk]
  split
  · rw [valid_mk]; omega
  · split
    · rename_i hm12
      have hone : 1 ≤ daysInMonth y (m + 1) :=
        one_le_daysInMonth (by omega) (by omega)
      rw [valid_mk]; omega
    · have hone : 1 ≤ daysInMonth (y + 1) 1 := one_le_daysInMonth (by omega) (by omega)
      have h31 : daysInMonth (y + 1) 1 = 31 := rfl
      rw [valid_mk]; omega

lemma rataDie_nextDay {d : Date} (h : Valid d) :
    rataDie (nextDay d) = rataDie d + 1 := by
  obtain ⟨y, m, dd⟩ := d
  rw [valid_mk] at h
  obtain ⟨hy, hm1, hm2, hd1, hd2⟩ := h
  rw [nextDay_mk]
  split
  · rw [rataDie_mk, rataDie_mk]; omega
  · rename_i hlt
    have hdd : dd = daysInMonth y m := by omega
    split
    · rename_i hm12
      rw [rataDie_mk, rataDie_mk]
      simp only [daysBeforeMonth_eq_dbmB]
      have hstep := dbmB_succ (isLeap y) m (by omega) hm1
      rw [daysInMonth_eq_dimB] at hdd
      omega
    · rename_i hm12
      have hm : m = 12 := by omega
      subst hm
      rw [daysInMonth_eq_dimB, dimB_twelve] at hdd
      rw [rataDie_mk, rataDie_mk]
      simp only [daysBeforeMonth_eq_dbmB, dbmB_one, dbmB_twelve]
      have hls := leapsLe_of_pos hy
      by_cases hb : isLeap y = true <;> simp only [hb] at hls ⊢ <;> simp at hls ⊢ <;> omega

lemma dkey_lt_nextDay {d : Date} (h : Valid d) : dkey d < dkey (nextDay d) := by
  obtain ⟨y, m, dd⟩ := d
  rw [valid_mk] at h
  obtain ⟨hy, hm1, hm2, hd1, hd2⟩ := h
  have hdim : daysInMonth y m ≤ 31 := daysInMonth_le_31 hm2
  rw [nextDay_mk]
  split
  · rw [dkey_mk, dkey_mk]; omega
  · split <;> rw [dkey_mk, dkey_mk] <;> omega

lemma date_eq_of_dkey_eq {d e : Date} (hd : Valid d) (he : Valid e)
    (h : dkey d = dkey e) : d = e := by
  obtain ⟨y1, m1, d1⟩ := d
  obtain ⟨y2, m2, d2⟩ := e
  rw [valid_mk] at hd he
  obtain ⟨_, hm1, hm2, hdd1, hdd2⟩ := hd
  obtain ⟨_, hm1c, hm2c, hdd1c, hdd2c⟩ := he
  have b1 : d1 ≤ 31 := le_trans hdd2 (daysInMonth_le_31 hm2)
  have b2 : d2 ≤ 31 := le_trans hdd2c (daysInMonth_le_31 hm2c)
  rw [dkey_mk, dkey_mk] at h
  simp only [Date.mk.injEq]
  omega

/-- `rataDie` is strictly monotone with respect to the lexicographic
(year, month, day) order on valid dates. -/
lemma rataDie_lt_of_dkey_lt {d e : Date} (hd : Valid d) (he : Valid e)
    (h : dkey d < dkey e) : rataDie d < rataDie e := by
  obtain ⟨y1, m1, d1⟩ := d
  obtain ⟨y2, m2, d2⟩ := e
  rw [valid_mk] at hd he
  obtain ⟨hy, hm1, hm2, hdd1, hdd2⟩ := hd
  obtain ⟨hyc, hm1c, hm2c, hdd1c, hdd2c⟩ := he
  have b1 : d1 ≤ 31 := le_trans hdd2 (daysInMonth_le_31 hm2)
  have b2 : d2 ≤ 31 := le_trans hdd2c (daysInMonth_le_31 hm2c)
  rw [dkey_mk, dkey_mk] at h
  have hcases : y1 < y2 ∨ (y1 = y2 ∧ m1 < m2) ∨ (y1 = y2 ∧ m1 = m2 ∧ d1 < d2) := by
    omega
  rw [rataDie_mk, rataDie_mk]
  simp only [daysBeforeMonth_eq_dbmB]
  rcases hcases with hlt | ⟨rfl, hlt⟩ | ⟨rfl, rfl, hlt⟩
  · -- different years: bound the day-of-year on both sides
    have hub : dbmB (isLeap y1) m1 + d1 ≤ 365 + (if isLeap y1 then 1 else 0) := by
      refine dbmB_add_le (isLeap y1) m1 (by omega) hm1 d1 (by omega) ?_
      rw [← daysInMonth_eq_dimB]; exact hdd2
    have hls1 := leapsLe_of_pos hy
    have hmono : leapsLe y1 ≤ leapsLe (y2 - 1) := leapsLe_mono (by omega)
    omega
  · -- same year, different months
    have hstep := dbmB_succ (isLeap y1) m1 (by omega) hm1
    have hmono : dbmB (isLeap y1) (m1 + 1) ≤ dbmB (isLeap y1) m2 :=
      dbmB_mono (isLeap y1) (m1 + 1) (by omega) m2 (by omega) (by omega)
    have hdim : d1 ≤ dimB (isLeap y1) m1 := by
      rw [← daysInMonth_eq_dimB]; exact hdd2
    omega
  · omega

lemma rataDie_inj {d e : Date} (hd : Valid d) (he : Valid e)
    (h : rataDie d = rataDie e) : d = e := by
  rcases Nat.lt_trichotomy (dkey d) (dkey e) with hlt | heq | hgt
  · exact absurd h (Nat.ne_of_lt (rataDie_lt_of_dkey_lt hd he hlt))
  · exact date_eq_of_dkey_eq hd he heq
  · exact absurd h.symm (Nat.ne_of_lt (rataDie_lt_of_dkey_lt he hd hgt))

/-- The date `n` days after `d`. -/
def addDays (d : Date) (n : Nat) : Date := nextDay^[n] d

lemma addDays_zero (d : Date) : addDays d 0 = d := rfl

lemma addDays_succ_left (d : Date) (n : Nat) :
    addDays d (n + 1) = addDays (nextDay d) n := by
  unfold addDays
  rw [Function.iterate_succ_apply]

lemma addDays_succ (d : Date) (n : Nat) :
    addDays d (n + 1) = nextDay (addDays d n) := by
  unfold addDays
  rw [Function.iterate_succ_apply']

lemma valid_addDays {d : Date} (h : Valid d) (n : Nat) : Valid (addDays d n) := by
  induction n with
  | zero => exact h
  | succ k ih => rw [addDays_succ]; exact valid_nextDay ih

lemma rataDie_addDays {d : Date} (h : Valid d) (n : Nat) :
    rataDie (addDays d n) = rataDie d + n := by
  induction n with
  | zero => rfl
  | succ k ih =>
      rw [addDays_succ, rataDie_nextDay (valid_addDays h k), ih]
      omega

/-- `n` consecutive days starting at `d`. -/
def dateRangeAux : Date → Nat → List Date
  | _, 0 => []
  | d, n + 1 => d :: dateRangeAux (nextDay d) n

/-- Length of the daily `pandas.date_range(start, stop)`: the number of
calendar days in `[start, stop]`, empty when `stop` is before `start`. -/
def dateRangeLen (start stop : Date) : Nat :=
  if rataDie stop < rataDie start then 0 else rataDie stop - rataDie start + 1

/-- `pandas.date_range(start, stop)` at daily frequency: every calendar day
from `start` through `stop` inclusive, in increasing order. -/
def date_range (start stop : Date) : List Date :=
  dateRangeAux start (dateRangeLen start stop)

lemma dateRangeAux_length (d : Date) (n : Nat) :
    (dateRangeAux d n).length = n := by
  induction n generalizing d with
  | zero => rfl
  | succ k ih => simp [dateRangeAux, ih]

lemma dateRangeAux_chain (d : Date) (n : Nat) :
    List.Chain' (fun a b => b = nextDay a) (dateRangeAux d n) := by
  induction n generalizing d with
  | zero => simp [dateRangeAux]
  | succ k ih =>
      cases k with
      | zero => simp [dateRangeAux]
      | succ j =>
          refine List.Chain'.cons rfl ?_
          exact ih (nextDay d)

lemma dateRangeAux_getElem (d : Date) (n i : Nat) (h : i < n) :
    (dateRangeAux d n).get ⟨i, by rw [dateRangeAux_length]; exact h⟩ =
      addDays d i := by
  induction n generalizing d i with
  | zero => omega
  | succ k ih =>
      cases i with
      | zero => rfl
      | succ j =>
          have hj : j < k := by omega
          have := ih (nextDay d) j hj
          simpa [dateRangeAux, addDays_succ_left] using this

lemma dateRangeAux_mem {d e : Date} {n : Nat} :
    e ∈ dateRangeAux d n ↔ ∃ k < n, e = addDays d k := by
  induction n generalizing d with
  | zero => simp [dateRangeAux]
  | succ k ih =>
      simp only [dateRangeAux, List.mem_cons, ih]
      constructor
      · rintro (rfl | ⟨j, hj, rfl⟩)
        · exact ⟨0, by omega, rfl⟩
        · exact ⟨j + 1, by omega, (addDays_succ_left d j).symm⟩
      · rintro ⟨j, hj, rfl⟩
        cases j with
        | zero => exact Or.inl rfl
        | succ i => exact Or.inr ⟨i, by omega, addDays_succ_left d i⟩

lemma dateRangeAux_head (d : Date) (n : Nat) (h : 0 < n) :
    (dateRangeAux d n).head? = some d := by
  cases n with
  | zero => omega
  | succ k => rfl

lemma dateRangeAux_getLastQ {d : Date} (n : Nat) :
    (dateRangeAux d (n + 1)).getLast? = some (addDays d n) := by
  induction n generalizing d with
  | zero => rfl
  | succ k ih =>
      rw [addDays_succ_left]
      have hcons : dateRangeAux d (k + 1 + 1)
          = d :: nextDay d :: dateRangeAux (nextDay (nextDay d)) k := rfl
      rw [hcons, List.getLast?_cons_cons]
      exact ih (d := nextDay d)

/-- Every element of a day range starting at a valid date is valid. -/
lemma dateRangeAux_valid {d : Date} (h : Valid d) {n : Nat} {e : Date}
    (he : e ∈ dateRangeAux d n) : Valid e := by
  obtain ⟨k, _, rfl⟩ := dateRangeAux_mem.mp he
  exact valid_addDays h k

/-- A day range starting at a valid date is strictly increasing. -/
lemma dateRangeAux_sorted {d : Date} (h : Valid d) (n : Nat) :
    List.Chain' (fun a b => dkey a < dkey b) (dateRangeAux d n) := by
  induction n generalizing d with
  | zero => simp [dateRangeAux]
  | succ k ih =>
      cases k with
      | zero => simp [dateRangeAux]
      | succ j =>
          exact List.Chain'.cons (dkey_lt_nextDay h) (ih (valid_nextDay h))

/-- Membership in `date_range start stop` for valid endpoints is exactly
"valid date whose day number lies between the endpoints'". -/
lemma mem_date_range_iff {start stop e : Date} (hs : Valid start)
    (hrange : rataDie start ≤ rataDie stop) :
    e ∈ date_range start stop ↔
      Valid e ∧ rataDie start ≤ rataDie e ∧ rataDie e ≤ rataDie stop := by
  unfold date_range dateRangeLen
  rw [if_neg (by omega)]
  rw [dateRangeAux_mem]
  constructor
  · rintro ⟨k, hk, rfl⟩
    exact ⟨valid_addDays hs k, by rw [rataDie_addDays hs]; omega,
      by rw [rataDie_addDays hs]; omega⟩
  · rintro ⟨hv, h1, h2⟩
    refine ⟨rataDie e - rataDie start, by omega, ?_⟩
    have hval : Valid (addDays start (rataDie e - rataDie start)) :=
      valid_addDays hs _
    have hrd : rataDie (addDays start (rataDie e - rataDie start)) = rataDie e := by
      rw [rataDie_addDays hs]; omega
    exact (rataDie_inj hval hv hrd).symm

/-- The day field of a valid date is at most 31. -/
lemma day_le_31 {d : Date} (h : Valid d) : d.day ≤ 31 :=
  le_trans h.2.2.2.2 (daysInMonth_le_31 h.2.2.1)

lemma subYears_mk (y m dd k : Nat) :
    subYears ⟨y, m, dd⟩ k = ⟨y - k, m, min dd (daysInMonth (y - k) m)⟩ := rfl

lemma addYears_mk (y m dd k : Nat) :
    addYears ⟨y, m, dd⟩ k = ⟨y + k, m, min dd (daysInMonth (y + k) m)⟩ := rfl

lemma addMonths_mk (y m dd k : Nat) :
    addMonths ⟨y, m, dd⟩ k =
      ⟨y + (m - 1 + k) / 12, (m - 1 + k) % 12 + 1,
        min dd (daysInMonth (y + (m - 1 + k) / 12) ((m - 1 + k) % 12 + 1))⟩ := rfl

lemma prevDay_mk (y m dd : Nat) :
    prevDay ⟨y, m, dd⟩ =
      if 1 < dd then ⟨y, m, dd - 1⟩
      else if 1 < m then ⟨y, m - 1, daysInMonth y (m - 1)⟩
      else ⟨y - 1, 12, 31⟩ := rfl

lemma valid_subYears {d : Date} (h : Valid d) (k : Nat) (hk : k < d.year) :
    Valid (subYears d k) := by
  obtain ⟨y, m, dd⟩ := d
  rw [valid_mk] at h
  rw [subYears_mk, valid_mk]
  have hone : 1 ≤ daysInMonth (y - k) m := one_le_daysInMonth h.2.1 h.2.2.1
  dsimp only at hk
  omega

lemma valid_addYears {d : Date} (h : Valid d) (k : Nat) :
    Valid (addYears d k) := by
  obtain ⟨y, m, dd⟩ := d
  rw [valid_mk] at h
  rw [addYears_mk, valid_mk]
  have hone : 1 ≤ daysInMonth (y + k) m := one_le_daysInMonth h.2.1 h.2.2.1
  omega

lemma valid_addMonths {d : Date} (h : Valid d) (k : Nat) :
    Valid (addMonths d k) := by
  obtain ⟨y, m, dd⟩ := d
  rw [valid_mk] at h
  rw [addMonths_mk, valid_mk]
  have hm12 : (m - 1 + k) % 12 + 1 ≤ 12 := by omega
  have hone : 1 ≤ daysInMonth (y + (m - 1 + k) / 12) ((m - 1 + k) % 12 + 1) :=
    one_le_daysInMonth (by omega) hm12
  omega

lemma valid_prevDay {d : Date} (h : Valid d) (hy : 2 ≤ d.year) :
    Valid (prevDay d) := by
  obtain ⟨y, m, dd⟩ := d
  rw [valid_mk] at h
  obtain ⟨h1, hm1, hm2, hd1, hd2⟩ := h
  dsimp only at hy
  rw [prevDay_mk]
  split
  · rw [valid_mk]; omega
  · split
    · rename_i hmm
      have hone : 1 ≤ daysInMonth y (m - 1) := one_le_daysInMonth (by omega) (by omega)
      rw [valid_mk]; omega
    · have h31 : daysInMonth (y - 1) 12 = 31 := by
        rw [daysInMonth_eq_dimB, dimB_twelve]
      rw [valid_mk]; omega

/-- Zero-pad a number to two digits (`strftime` `%m` / `%d`). -/
def pad2 (n : Nat) : String :=
  if n < 10 then "0" ++ toString n else toString n

/-- Zero-pad a number to four digits (`strftime` `%Y`). -/
def pad4 (n : Nat) : String :=
  if n < 10 then "000" ++ toString n
  else if n < 100 then "00" ++ toString n
  else if n < 1000 then "0" ++ toString n
  else toString n

/-- `date.strftime('%Y-%m-%d')`. -/
def fmtDate (d : Date) : String :=
  pad4 d.year ++ "-" ++ pad2 d.month ++ "-" ++ pad2 d.day

/-- `list_files` from `pysat/instruments/methods/testing.py`.

With `data_path=None` the prefix is `''`; with `file_date_range=None` the
range defaults to the three-year window
`[test_date - 1 year, test_date + 2 years - 1 day]` derived from
`test_dates` via `pds.DateOffset` arithmetic; the result maps each date of
the range to `data_path + date.strftime('%Y-%m-%d') + '.nofile'`, indexed
by date. -/
def list_files (data_path : Option String)
    (file_date_range : Option (List Date)) (test_date : Date) :
    List (Date × String) :=
  let dp := data_path.getD ""
  let index :=
    match file_date_range with
    | some r => r
    | none => date_range (subYears test_date 1) (prevDay (addYears test_date 2))
  index.map (fun d => (d, dp ++ fmtDate d ++ ".nofile"))

/-- `list_remote_files` from `pysat/instruments/methods/testing.py`.

With `start=None` it defaults to `test_date - 1 year`; with `stop=None` it
defaults to `test_date + 2 years - 1 day + 1 month` (offsets applied left
to right); it then delegates to `list_files` with that explicit range. -/
def list_remote_files (data_path : Option String)
    (start stop : Option Date) (test_date : Date) : List (Date × String) :=
  let start := start.getD (subYears test_date 1)
  let stop := stop.getD (addMonths (prevDay (addYears test_date 2)) 1)
  list_files data_path (some (date_range start stop)) test_date

lemma dkey_lt_of_year_lt {d e : Date} (hd : Valid d) (he : Valid e)
    (h : d.year < e.year) : dkey d < dkey e := by
  have b1 : d.day ≤ 31 := day_le_31 hd
  have hm : d.month ≤ 12 := hd.2.2.1
  have hm1 : 1 ≤ e.month := he.2.1
  have hd1 : 1 ≤ e.day := he.2.2.2.1
  unfold dkey
  omega

lemma prevDay_year_ge (d : Date) : d.year - 1 ≤ (prevDay d).year := by
  unfold prevDay
  split
  · dsimp only; omega
  · split <;> · dsimp only; omega

lemma subYears_year (d : Date) (k : Nat) : (subYears d k).year = d.year - k := rfl

lemma addYears_year (d : Date) (k : Nat) : (addYears d k).year = d.year + k := rfl

/-- In the default `list_files` window for a valid reference date the start
lies strictly before the stop. -/
lemma default_window_lt {R : Date} (hR : Valid R) (hy : 2 ≤ R.year) :
    rataDie (subYears R 1) < rataDie (prevDay (addYears R 2)) := by
  have hvs : Valid (subYears R 1) := valid_subYears hR 1 (by omega)
  have hva : Valid (addYears R 2) := valid_addYears hR 2
  have hvt : Valid (prevDay (addYears R 2)) :=
    valid_prevDay hva (by rw [addYears_year]; omega)
  refine rataDie_lt_of_dkey_lt hvs hvt (dkey_lt_of_year_lt hvs hvt ?_)
  have h1 := prevDay_year_ge (addYears R 2)
  rw [addYears_year] at h1
  rw [subYears_year]
  omega

lemma date_range_getLast {start stop : Date} (hs : Valid start)
    (ht : Valid stop) (h : rataDie start ≤ rataDie stop) :
    (date_range start stop).getLast? = some stop := by
  unfold date_range dateRangeLen
  rw [if_neg (by omega)]
  have hn : rataDie stop - rataDie start + 1 = (rataDie stop - rataDie start) + 1 := rfl
  rw [hn, dateRangeAux_getLastQ]
  congr 1
  refine rataDie_inj (valid_addDays hs _) ht ?_
  rw [rataDie_addDays hs]
  omega

lemma date_range_length {start stop : Date}
    (h : rataDie start ≤ rataDie stop) :
    (date_range start stop).length = rataDie stop - rataDie start + 1 := by
  unfold date_range dateRangeLen
  rw [if_neg (by omega), dateRangeAux_length]

lemma date_range_head {start stop : Date}
    (h : rataDie start ≤ rataDie stop) :
    (date_range start stop).head? = some start := by
  unfold date_range dateRangeLen
  rw [if_neg (by omega)]
  exact dateRangeAux_head start _ (by omega)

lemma list_files_map_fst (dp : Option String) (r : Option (List Date))
    (R : Date) :
    (list_files dp r R).map Prod.fst =
      match r with
      | some l => l
      | none => date_range (subYears R 1) (prevDay (addYears R 2)) := by
  cases r <;> simp only [list_files, List.map_map] <;>
    · have : (Prod.fst ∘ fun d : Date => (d, (dp.getD "") ++ fmtDate d ++ ".nofile"))
          = id := rfl
      rw [this, List.map_id]

/-- C1: for every reference date `R` (with `file_date_range=None`),
`list_files` returns one entry per calendar day of
`[R - 1 year, R + 2 years - 1 day]`: keyed by date, consecutive days with
no gaps, strictly increasing (hence no duplicates), first key the start,
last key the stop, and each filename `data_path + YYYY-MM-DD + '.nofile'`. -/
theorem list_files_default_window (R : Date) (dp : Option String)
    (hR : Valid R) (hy : 2 ≤ R.year) :
    (list_files dp none R).map Prod.fst =
        date_range (subYears R 1) (prevDay (addYears R 2)) ∧
    (∀ e : Date, e ∈ (list_files dp none R).map Prod.fst ↔
        Valid e ∧ rataDie (subYears R 1) ≤ rataDie e ∧
          rataDie e ≤ rataDie (prevDay (addYears R 2))) ∧
    List.Chain' (fun p q => q.1 = nextDay p.1) (list_files dp none R) ∧
    List.Chain' (fun p q => dkey p.1 < dkey q.1) (list_files dp none R) ∧
    (list_files dp none R).length =
        rataDie (prevDay (addYears R 2)) - rataDie (subYears R 1) + 1 ∧
    ((list_files dp none R).map Prod.fst).head? = some (subYears R 1) ∧
    ((list_files dp none R).map Prod.fst).getLast? =
        some (prevDay (addYears R 2)) ∧
    (∀ p ∈ list_files dp none R,
        p.2 = (dp.getD "") ++ fmtDate p.1 ++ ".nofile") := by
  have hvs : Valid (subYears R 1) := valid_subYears hR 1 (by omega)
  have hva : Valid (addYears R 2) := valid_addYears hR 2
  have hvt : Valid (prevDay (addYears R 2)) :=
    valid_prevDay hva (by rw [addYears_year]; omega)
  have hlt := default_window_lt hR hy
  have hmap := list_files_map_fst dp none R
  simp only at hmap
  refine ⟨hmap, ?_, ?_, ?_, ?_, ?_, ?_, ?_⟩
  · intro e
    rw [hmap]
    exact mem_date_range_iff hvs (le_of_lt hlt)
  · show List.Chain' _ (List.map _ _)
    rw [List.chain'_map]
    unfold date_range
    exact dateRangeAux_chain _ _
  · show List.Chain' _ (List.map _ _)
    rw [List.chain'_map]
    unfold date_range
    exact dateRangeAux_sorted hvs _
  · show (List.map _ _).length = _
    rw [List.length_map]
    exact date_range_length (le_of_lt hlt)
  · rw [hmap]; exact date_range_head (le_of_lt hlt)
  · rw [hmap]; exact date_range_getLast hvs hvt (le_of_lt hlt)
  · intro p hp
    unfold list_files at hp
    simp only [List.mem_map] at hp
    obtain ⟨d, _, rfl⟩ := hp
    rfl

/-- Witness for C1 at the reference date 2009-01-01: the window runs
2008-01-01 through 2010-12-31 and the first and last catalog entries carry
the filenames `2008-01-01.nofile` and `2010-12-31.nofile`. -/
theorem list_files_default_window_witness :
    Valid ⟨2009, 1, 1⟩ ∧ 2 ≤ (Date.mk 2009 1 1).year ∧
    subYears ⟨2009, 1, 1⟩ 1 = ⟨2008, 1, 1⟩ ∧
    prevDay (addYears ⟨2009, 1, 1⟩ 2) = ⟨2010, 12, 31⟩ ∧
    ((list_files none none ⟨2009, 1, 1⟩).map Prod.fst).head? = some ⟨2008, 1, 1⟩ ∧
    ((list_files none none ⟨2009, 1, 1⟩).map Prod.fst).getLast? =
      some ⟨2010, 12, 31⟩ ∧
    (list_files none none ⟨2009, 1, 1⟩).head? =
      some (⟨2008, 1, 1⟩, "2008-01-01.nofile") ∧
    (list_files none none ⟨2009, 1, 1⟩).getLast? =
      some (⟨2010, 12, 31⟩, "2010-12-31.nofile") := by
  have h := list_files_default_window ⟨2009, 1, 1⟩ none (by decide) (by decide)
  have hstart : subYears ⟨2009, 1, 1⟩ 1 = (⟨2008, 1, 1⟩ : Date) := by decide
  have hstop : prevDay (addYears ⟨2009, 1, 1⟩ 2) = (⟨2010, 12, 31⟩ : Date) := by
    decide
  have hh := h.2.2.2.2.2.1
  have hl := h.2.2.2.2.2.2.1
  rw [hstart] at hh
  rw [hstop] at hl
  have hfmt := h.2.2.2.2.2.2.2
  rw [List.head?_map] at hh
  rw [List.getLast?_map] at hl
  obtain ⟨p, hp, hp1⟩ : ∃ p, (list_files none none ⟨2009, 1, 1⟩).head? = some p ∧
      p.1 = (⟨2008, 1, 1⟩ : Date) := by
    cases hx : (list_files none none ⟨2009, 1, 1⟩).head? with
    | none => rw [hx] at hh; simp at hh
    | some q => rw [hx] at hh; simp at hh; exact ⟨q, rfl, hh⟩
  obtain ⟨q, hq, hq1⟩ : ∃ q, (list_files none none ⟨2009, 1, 1⟩).getLast? = some q ∧
      q.1 = (⟨2010, 12, 31⟩ : Date) := by
    cases hx : (list_files none none ⟨2009, 1, 1⟩).getLast? with
    | none => rw [hx] at hl; simp at hl
    | some r => rw [hx] at hl; simp at hl; exact ⟨r, rfl, hl⟩
  have hpmem : p ∈ list_files none none ⟨2009, 1, 1⟩ :=
    List.mem_of_mem_head? (by simp [hp])
  have hqmem : q ∈ list_files none none ⟨2009, 1, 1⟩ :=
    List.mem_of_mem_getLast? (by simp [hq])
  have hp2 := hfmt p hpmem
  have hq2 := hfmt q hqmem
  rw [hp1] at hp2
  rw [hq1] at hq2
  have hpe : p = ((⟨2008, 1, 1⟩ : Date), "2008-01-01.nofile") := by
    have : p = (p.1, p.2) := rfl
    rw [this, hp1, hp2]
    exact congrArg _ (by decide)
  have hqe : q = ((⟨2010, 12, 31⟩ : Date), "2010-12-31.nofile") := by
    have : q = (q.1, q.2) := rfl
    rw [this, hq1, hq2]
    exact congrArg _ (by decide)
  rw [List.head?_map, List.getLast?_map]
  exact ⟨by decide, by decide, hstart, hstop, by rw [hp]; simp [hp1],
    by rw [hq]; simp [hq1], by rw [hp, hpe], by rw [hq, hqe]⟩

lemma dkey_lt_addMonths_one {d : Date} (h : Valid d) :
    dkey d < dkey (addMonths d 1) := by
  obtain ⟨y, m, dd⟩ := d
  rw [valid_mk] at h
  obtain ⟨hy, hm1, hm2, hd1, hd2⟩ := h
  have hb : dd ≤ 31 := le_trans hd2 (daysInMonth_le_31 hm2)
  rw [addMonths_mk, dkey_mk, dkey_mk]
  have hdim : 1 ≤ daysInMonth (y + (m - 1 + 1) / 12) ((m - 1 + 1) % 12 + 1) :=
    one_le_daysInMonth (by omega) (by omega)
  have hmin1 : 1 ≤ min dd (daysInMonth (y + (m - 1 + 1) / 12) ((m - 1 + 1) % 12 + 1)) :=
    le_min hd1 hdim
  have hmin2 : min dd (daysInMonth (y + (m - 1 + 1) / 12) ((m - 1 + 1) % 12 + 1)) ≤ dd :=
    min_le_left _ _
  omega

lemma dateRangeAux_take (d : Date) (n m : Nat) :
    (dateRangeAux d n).take m = dateRangeAux d (min m n) := by
  induction n generalizing d m with
  | zero => simp [dateRangeAux]
  | succ k ih =>
      cases m with
      | zero => simp [dateRangeAux]
      | succ j =>
          show (d :: dateRangeAux (nextDay d) k).take (j + 1) = _
          rw [List.take_succ_cons, ih, Nat.succ_min_succ]
          rfl

/-- C2 counterexample: at the month-end reference date 2009-01-31 the
remote default stop `((R + 2y) - 1d) + 1m` is 2011-02-28, while the claimed
stop `R + 2y + 1m - 1d` is 2011-02-27, so the remote window does not end at
the claimed stop. -/
theorem list_remote_files_window_cex :
    addMonths (prevDay (addYears ⟨2009, 1, 31⟩ 2)) 1 = ⟨2011, 2, 28⟩ ∧
    prevDay (addMonths (addYears ⟨2009, 1, 31⟩ 2) 1) = ⟨2011, 2, 27⟩ ∧
    ((list_remote_files none none none ⟨2009, 1, 31⟩).map Prod.fst).getLast? =
      some ⟨2011, 2, 28⟩ ∧
    ((list_remote_files none none none ⟨2009, 1, 31⟩).map Prod.fst).getLast? ≠
      some (prevDay (addMonths (addYears ⟨2009, 1, 31⟩ 2) 1)) := by
  have e1 : addMonths (prevDay (addYears ⟨2009, 1, 31⟩ 2)) 1 =
      (⟨2011, 2, 28⟩ : Date) := by decide
  have e2 : prevDay (addMonths (addYears ⟨2009, 1, 31⟩ 2) 1) =
      (⟨2011, 2, 27⟩ : Date) := by decide
  have hun : list_remote_files none none none ⟨2009, 1, 31⟩ =
      list_files none (some (date_range (subYears ⟨2009, 1, 31⟩ 1)
        (addMonths (prevDay (addYears ⟨2009, 1, 31⟩ 2)) 1))) ⟨2009, 1, 31⟩ := rfl
  have hmap : (list_remote_files none none none ⟨2009, 1, 31⟩).map Prod.fst =
      date_range (subYears ⟨2009, 1, 31⟩ 1)
        (addMonths (prevDay (addYears ⟨2009, 1, 31⟩ 2)) 1) := by
    rw [hun]
    exact list_files_map_fst _ _ _
  have hlast : ((list_remote_files none none none ⟨2009, 1, 31⟩).map
      Prod.fst).getLast? = some ⟨2011, 2, 28⟩ := by
    rw [hmap, e1]
    exact date_range_getLast (by decide) (by decide) (by decide)
  refine ⟨e1, e2, hlast, ?_⟩
  rw [hlast, e2]
  decide

/-- C2 (amended): with `start=None`, `stop=None` the remote catalog is the
local `list_files` call on the range whose stop is the local default stop
extended by one calendar month, `((R + 2y) - 1d) + 1m` (which for month-end
references can differ from `R + 2y + 1m - 1d`); the local default catalog
is an initial segment of the remote one, the windows' lengths differ by the
days of the added month, and every remote filename has the identical
`data_path + YYYY-MM-DD + '.nofile'` format. -/
theorem list_remote_files_default_delegation (R : Date) (dp : Option String)
    (hR : Valid R) (hy : 2 ≤ R.year) :
    list_remote_files dp none none R =
      list_files dp (some (date_range (subYears R 1)
        (addMonths (prevDay (addYears R 2)) 1))) R ∧
    (list_remote_files dp none none R).take (list_files dp none R).length =
      list_files dp none R ∧
    (list_files dp none R).length =
      rataDie (prevDay (addYears R 2)) - rataDie (subYears R 1) + 1 ∧
    (list_remote_files dp none none R).length =
      rataDie (addMonths (prevDay (addYears R 2)) 1) - rataDie (subYears R 1) + 1 ∧
    (∀ p ∈ list_remote_files dp none none R,
        p.2 = (dp.getD "") ++ fmtDate p.1 ++ ".nofile") := by
  have hvs : Valid (subYears R 1) := valid_subYears hR 1 (by omega)
  have hva : Valid (addYears R 2) := valid_addYears hR 2
  have hvt : Valid (prevDay (addYears R 2)) :=
    valid_prevDay hva (by rw [addYears_year]; omega)
  have hltL := default_window_lt hR hy
  have hltM : rataDie (prevDay (addYears R 2)) <
      rataDie (addMonths (prevDay (addYears R 2)) 1) :=
    rataDie_lt_of_dkey_lt hvt (valid_addMonths hvt 1) (dkey_lt_addMonths_one hvt)
  have hun : list_remote_files dp none none R =
      list_files dp (some (date_range (subYears R 1)
        (addMonths (prevDay (addYears R 2)) 1))) R := rfl
  refine ⟨hun, ?_, ?_, ?_, ?_⟩
  · have hlocal : list_files dp none R =
        List.map (fun d => (d, (dp.getD "") ++ fmtDate d ++ ".nofile"))
          (dateRangeAux (subYears R 1)
            (rataDie (prevDay (addYears R 2)) - rataDie (subYears R 1) + 1)) := by
      unfold list_files date_range dateRangeLen
      rw [if_neg (by omega)]
    rw [hun, hlocal]
    show (List.map _ _).take (List.map _ _).length = _
    rw [List.length_map, ← List.map_take]
    unfold date_range
    rw [dateRangeAux_length, dateRangeAux_take]
    unfold dateRangeLen
    rw [if_neg (by omega), Nat.min_eq_left (by omega)]
  · show (List.map _ _).length = _
    rw [List.length_map]
    exact date_range_length (le_of_lt hltL)
  · rw [hun]
    show (List.map _ _).length = _
    rw [List.length_map]
    exact date_range_length (by omega)
  · intro p hp
    rw [hun] at hp
    unfold list_files at hp
    simp only [List.mem_map] at hp
    obtain ⟨d, _, rfl⟩ := hp
    rfl

/-- Witness for the amended C2 at the reference date 2009-01-01. -/
theorem list_remote_files_default_delegation_witness :
    Valid ⟨2009, 1, 1⟩ ∧ 2 ≤ (Date.mk 2009 1 1).year ∧
    list_remote_files none none none ⟨2009, 1, 1⟩ =
      list_files none (some (date_range (subYears ⟨2009, 1, 1⟩ 1)
        (addMonths (prevDay (addYears ⟨2009, 1, 1⟩ 2)) 1))) ⟨2009, 1, 1⟩ ∧
    (list_remote_files none none none ⟨2009, 1, 1⟩).take
        (list_files none none ⟨2009, 1, 1⟩).length =
      list_files none none ⟨2009, 1, 1⟩ := by
  have h := list_remote_files_default_delegation ⟨2009, 1, 1⟩ none
    (by decide) (by decide)
  exact ⟨by decide, by decide, h.1, h.2.1⟩

section Signal

variable {K : Type} [LinearOrderedField K] [FloorRing K]

/-- `numpy.mod(x, p)` for real arguments: `x - p * floor(x / p)`; for a
positive modulus the result lies in `[0, p)` and has the sign of `p`. -/
def npMod (x p : K) : K := x - p * ⌊x / p⌋

/-- `.astype(int)` on a float array: truncation toward zero. -/
def truncInt (x : K) : ℤ := if 0 ≤ x then ⌊x⌋ else ⌈x⌉

/-- The cyclic branch of `generate_fake_data`:
`np.mod(np.mod(t0, period) + num_array, period) * (np.diff(data_range)[0]
/ period) + data_range[0]`. -/
def fakeDataCyclic (t0 : K) (num_array : List K) (period lo hi : K) : List K :=
  num_array.map (fun x => npMod (npMod t0 period + x) period * ((hi - lo) / period) + lo)

/-- The monotonic branch of `generate_fake_data`:
`((t0 + num_array) / period).astype(int)`. -/
def fakeDataMono (t0 : K) (num_array : List K) (period : K) : List ℤ :=
  num_array.map (fun x => truncInt ((t0 + x) / period))

/-- `generate_fake_data` from `pysat/instruments/methods/testing.py`: the
cyclic branch yields a float array, the monotonic branch an int array. -/
def generate_fake_data (t0 : K) (num_array : List K) (period : K)
    (lo hi : K) (cyclic : Bool) : List K ⊕ List ℤ :=
  if cyclic then Sum.inl (fakeDataCyclic t0 num_array period lo hi)
  else Sum.inr (fakeDataMono t0 num_array period)

lemma npMod_eq_fract (x p : K) (hp : p ≠ 0) :
    npMod x p = p * Int.fract (x / p) := by
  unfold npMod Int.fract
  field_simp

lemma npMod_nonneg (x : K) {p : K} (hp : 0 < p) : 0 ≤ npMod x p := by
  rw [npMod_eq_fract x p hp.ne.symm]
  exact mul_nonneg hp.le (Int.fract_nonneg _)

lemma npMod_lt (x : K) {p : K} (hp : 0 < p) : npMod x p < p := by
  rw [npMod_eq_fract x p hp.ne.symm]
  calc p * Int.fract (x / p) < p * 1 :=
        (mul_lt_mul_left hp).mpr (Int.fract_lt_one _)
    _ = p := mul_one p

lemma npMod_add_int_mul (x : K) {p : K} (hp : 0 < p) (k : ℤ) :
    npMod (x + k * p) p = npMod x p := by
  unfold npMod
  have hdiv : (x + k * p) / p = x / p + k := by
    field_simp
  rw [hdiv, Int.floor_add_int]
  push_cast
  ring

lemma truncInt_mono {x y : K} (h : x ≤ y) : truncInt x ≤ truncInt y := by
  unfold truncInt
  by_cases hx : 0 ≤ x
  · rw [if_pos hx, if_pos (le_trans hx h)]
    exact Int.floor_le_floor h
  · rw [if_neg hx]
    by_cases hy : 0 ≤ y
    · rw [if_pos hy]
      refine le_trans (Int.ceil_le.mpr ?_) (Int.floor_nonneg.mpr hy)
      push_cast
      exact le_of_not_le hx
    · rw [if_neg hy]
      exact Int.ceil_le_ceil h

/-- C3: with `cyclic=True`, `generate_fake_data` returns, at each sample,
`((mod(t0, p) + O[i]) mod p) * ((hi - lo) / p) + lo`; every output value
lies in `[lo, hi)` no matter how large `t0` or the offsets are, and the
output is invariant under `t0 -> t0 + k * p` for any integer `k`. -/
theorem generate_fake_data_cyclic (t0 : ℚ) (O : List ℚ) (p lo hi : ℚ)
    (hp : 0 < p) (hlo : lo < hi) :
    generate_fake_data t0 O p lo hi true =
      Sum.inl (O.map (fun x => npMod (npMod t0 p + x) p * ((hi - lo) / p) + lo)) ∧
    (∀ y ∈ fakeDataCyclic t0 O p lo hi, lo ≤ y ∧ y < hi) ∧
    (∀ k : ℤ, generate_fake_data (t0 + k * p) O p lo hi true =
      generate_fake_data t0 O p lo hi true) := by
  refine ⟨rfl, ?_, ?_⟩
  · intro y hy
    unfold fakeDataCyclic at hy
    simp only [List.mem_map] at hy
    obtain ⟨x, _, rfl⟩ := hy
    have h0 : 0 ≤ npMod (npMod t0 p + x) p := npMod_nonneg _ hp
    have h1 : npMod (npMod t0 p + x) p < p := npMod_lt _ hp
    have hq : 0 < (hi - lo) / p := div_pos (by linarith) hp
    constructor
    · nlinarith
    · have hmul : npMod (npMod t0 p + x) p * ((hi - lo) / p) <
          p * ((hi - lo) / p) := (mul_lt_mul_right hq).mpr h1
      have hpe : p * ((hi - lo) / p) = hi - lo := by field_simp
      linarith [hmul, hpe.le, hpe.ge]
  · intro k
    unfold generate_fake_data fakeDataCyclic
    rw [npMod_add_int_mul t0 hp k]
    rfl

/-- Witness for C3 at `t0 = 86400`, `O = [0, 100, 5820]`, `p = 5820`,
range `[0, 24)`, exercising the bound and the period-shift invariance
(`k = -3`). -/
theorem generate_fake_data_cyclic_witness :
    (0 : ℚ) < 5820 ∧ (0 : ℚ) < 24 ∧
    (∀ y ∈ fakeDataCyclic (86400 : ℚ) [0, 100, 5820] 5820 0 24, 0 ≤ y ∧ y < 24) ∧
    ∀ k : ℤ, generate_fake_data ((86400 : ℚ) + k * 5820) [0, 100, 5820] 5820 0 24 true =
      generate_fake_data (86400 : ℚ) [0, 100, 5820] 5820 0 24 true := by
  have h := generate_fake_data_cyclic 86400 [0, 100, 5820] 5820 0 24
    (by decide) (by decide)
  exact ⟨by decide, by decide, h.2.1, h.2.2⟩

/-- C4 counterexample: the monotonic branch truncates toward zero rather
than flooring.  Loading the first file of the default window (2008-01-01,
i.e. `t0 = -31622400` seconds from the 2009-01-01 orbit origin) gives
`-5433`, while the floor is `-5434`. -/
theorem generate_fake_data_mono_cex :
    generate_fake_data (-31622400 : ℚ) [0] 5820 0 24 false = Sum.inr [-5433] ∧
    ⌊((-31622400 : ℚ) + 0) / 5820⌋ = -5434 ∧
    (-5433 : ℤ) ≠ -5434 := by
  have hval : ((-31622400 : ℚ) + 0) / 5820 = -(31622400 / 5820 : ℚ) := by
    norm_num
  have hceil : truncInt (((-31622400 : ℚ) + 0) / 5820) = -5433 := by
    unfold truncInt
    rw [if_neg (by rw [hval]; norm_num), hval, Int.ceil_neg]
    norm_num
  refine ⟨?_, by norm_num, by decide⟩
  have h1 : fakeDataMono (-31622400 : ℚ) [0] 5820 =
      [truncInt (((-31622400 : ℚ) + 0) / 5820)] := rfl
  show Sum.inr (fakeDataMono (-31622400 : ℚ) [0] 5820) = Sum.inr [-5433]
  rw [h1, hceil]

/-- C4 (amended): with `cyclic=False`, `generate_fake_data` returns at each
sample the integer truncation toward zero of `(t0 + O[i]) / p` (which
equals the floor whenever `t0 + O[i] ≥ 0`), and whenever `O` is
non-decreasing the output sequence is non-decreasing. -/
theorem generate_fake_data_mono (t0 : ℚ) (O : List ℚ) (p lo hi : ℚ)
    (hp : 0 < p) :
    generate_fake_data t0 O p lo hi false =
      Sum.inr (O.map (fun x => truncInt ((t0 + x) / p))) ∧
    (∀ x ∈ O, 0 ≤ t0 + x → truncInt ((t0 + x) / p) = ⌊(t0 + x) / p⌋) ∧
    (List.Chain' (· ≤ ·) O →
      List.Chain' (· ≤ ·) (fakeDataMono t0 O p)) := by
  refine ⟨rfl, ?_, ?_⟩
  · intro x _ hx
    unfold truncInt
    rw [if_pos (div_nonneg hx hp.le)]
  · intro hO
    unfold fakeDataMono
    rw [List.chain'_map]
    refine List.Chain'.imp ?_ hO
    intro a b hab
    exact truncInt_mono ((div_le_div_iff_of_pos_right hp).mpr (by linarith))

/-- Witness for the amended C4 on the non-decreasing offsets
`[0, 100, 5820]` with `t0 = 0`. -/
theorem generate_fake_data_mono_witness :
    (0 : ℚ) < 5820 ∧
    List.Chain' (· ≤ ·) ([0, 100, 5820] : List ℚ) ∧
    List.Chain' (· ≤ ·) (fakeDataMono (0 : ℚ) [0, 100, 5820] 5820) := by
  have hchain : List.Chain' (· ≤ ·) ([0, 100, 5820] : List ℚ) :=
    List.Chain'.cons (by decide) (List.Chain'.cons (by decide)
      (List.chain'_singleton _))
  have h := generate_fake_data_mono 0 [0, 100, 5820] 5820 0 24 (by decide)
  exact ⟨by decide, hchain, h.2.2 hchain⟩

end Signal

section Times

/-- Split a character list on a separator character (Python `str.split`):
an empty input yields `[[]]`, matching `''.split(sep) == ['']`. -/
def splitOnChar (sep : Char) (cs : List Char) : List (List Char) :=
  cs.foldr
    (fun c acc =>
      match acc with
      | [] => [[c]]
      | g :: gs => if c = sep then [] :: g :: gs else (c :: g) :: gs)
    [[]]

/-- `os.path.split(fname)[-1]` on a character-list view of the path: the
part after the last '/'. -/
def basenameChars (cs : List Char) : List Char :=
  (splitOnChar '/' cs).getLastD []

/-- Python `int` on a decimal-digit string: `none` (a `ValueError`) when
empty or holding a non-digit. -/
def parseNatChars (cs : List Char) : Option Nat :=
  if cs ≠ [] ∧ cs.all Char.isDigit then
    some (cs.foldl (fun acc c => acc * 10 + (c.toNat - 48)) 0)
  else none

/-- The date parsing of `generate_times`: `parts = basename.split('-')`,
`yr = int(parts[0])`, `month = int(parts[1])`, `day = int(parts[2][0:2])`,
then `dt.datetime(yr, month, day)`, which validates the calendar date.
`none` models the `IndexError` / `ValueError` on malformed names. -/
def parseFnameDate (fname : String) : Option Date :=
  match splitOnChar '-' (basenameChars fname.toList) with
  | p0 :: p1 :: p2 :: _ =>
      match parseNatChars p0, parseNatChars p1, parseNatChars (p2.take 2) with
      | some yr, some mo, some dy =>
          if Valid ⟨yr, mo, dy⟩ then some ⟨yr, mo, dy⟩ else none
      | _, _, _ => none
  | _ => none

/-- Tick count of `pds.date_range(start=date, end=date+86399s, freq=f)` for
a whole-second frequency `f`: one tick at each `k*f ≤ 86399`. -/
def dayTicks (f : Nat) : Nat := 86399 / f + 1

/-- One day's second-of-day grid, truncated to `num` samples
(`index = index[0:num]`). -/
def fileGrid (f num : Nat) : List Nat :=
  ((List.range (dayTicks f)).map (· * f)).take num

/-- The per-file loop of `generate_times`: `loop` is the file position;
`uts` extends by `index.hour*3600 + index.minute*60 + index.second +
86400.*loop`, which for a whole-second grid is `k*f + 86400*loop`; the
timestamp index extends by the day's grid; `dates` appends the parsed
date. -/
def gtAux (num f : Nat) :
    List String → Nat → Option (List Nat × List (Date × Nat) × List Date)
  | [], _ => some ([], [], [])
  | fn :: rest, loop =>
      match parseFnameDate fn with
      | none => none
      | some d =>
          match gtAux num f rest (loop + 1) with
          | none => none
          | some (uts, idx, ds) =>
              some ((fileGrid f num).map (· + 86400 * loop) ++ uts,
                    (fileGrid f num).map (fun s => (d, s)) ++ idx,
                    d :: ds)

/-- `generate_times` from `pysat/instruments/methods/testing.py` for a
numeric `num`, returning `(uts, index, dates)`; each index entry is a
(date, second-of-day) pair. -/
def generate_times_core (fnames : List String) (num f : Nat) :
    Option (List Nat × List (Date × Nat) × List Date) :=
  gtAux num f fnames 0

/-- The `num` argument of `generate_times`: an integer, or the deprecated
string form. -/
inductive NumArg where
  | int (n : Nat)
  | str (s : String)
deriving DecidableEq

/-- `generate_times` including the deprecated string-`num` path.  The Bool
records whether the `DeprecationWarning` was issued.  A string `num` warns
but is never coerced to an integer, so the subsequent slice `index[0:num]`
mixes an integer and a string bound and raises a `TypeError` in pandas
(modelled as `none`). -/
def generate_times (fnames : List String) (num : NumArg) (f : Nat) :
    Bool × Option (List Nat × List (Date × Nat) × List Date) :=
  match num with
  | NumArg.int n => (false, generate_times_core fnames n f)
  | NumArg.str _ => (true, none)

lemma gtAux_eq (num f : Nat) :
    ∀ (fnames : List String) (ds : List Date) (k : Nat),
      fnames.mapM parseFnameDate = some ds →
      gtAux num f fnames k = some (
        (List.enumFrom k ds).flatMap
          (fun p => (fileGrid f num).map (· + 86400 * p.1)),
        ds.flatMap (fun d => (fileGrid f num).map (fun s => (d, s))),
        ds) := by
  intro fnames
  induction fnames with
  | nil =>
      intro ds k h
      simp only [List.mapM_nil, pure, Option.some.injEq] at h
      subst h
      rfl
  | cons fn rest ih =>
      intro ds k h
      rw [List.mapM_cons] at h
      cases hp : parseFnameDate fn with
      | none => rw [hp] at h; simp at h
      | some d =>
          rw [hp] at h
          cases hr : rest.mapM parseFnameDate with
          | none => rw [hr] at h; simp at h
          | some tl =>
              rw [hr] at h
              simp only [Option.bind_eq_bind, Option.some_bind, pure,
                Option.some.injEq] at h
              subst h
              show gtAux num f (fn :: rest) k = _
              rw [show gtAux num f (fn :: rest) k =
                  match parseFnameDate fn with
                  | none => none
                  | some d =>
                      match gtAux num f rest (k + 1) with
                      | none => none
                      | some (uts, idx, ds) =>
                          some ((fileGrid f num).map (· + 86400 * k) ++ uts,
                                (fileGrid f num).map (fun s => (d, s)) ++ idx,
                                d :: ds) from rfl]
              rw [hp, ih tl (k + 1) hr]
              simp only [List.enumFrom, List.flatMap_cons]

lemma mapM_parse_length :
    ∀ (fnames : List String) (ds : List Date),
      fnames.mapM parseFnameDate = some ds → ds.length = fnames.length := by
  intro fnames
  induction fnames with
  | nil =>
      intro ds h
      simp only [List.mapM_nil, pure, Option.some.injEq] at h
      subst h
      rfl
  | cons fn rest ih =>
      intro ds h
      rw [List.mapM_cons] at h
      cases hp : parseFnameDate fn with
      | none => rw [hp] at h; simp at h
      | some d =>
          rw [hp] at h
          cases hr : rest.mapM parseFnameDate with
          | none => rw [hr] at h; simp at h
          | some tl =>
              rw [hr] at h
              simp only [Option.bind_eq_bind, Option.some_bind, pure,
                Option.some.injEq] at h
              subst h
              simp [ih tl hr]

lemma fileGrid_length (f num : Nat) :
    (fileGrid f num).length = min num (dayTicks f) := by
  unfold fileGrid
  rw [List.length_take, List.length_map, List.length_range]

lemma mem_fileGrid_le {f num x : Nat} (_hf : 1 ≤ f) (hx : x ∈ fileGrid f num) :
    x ≤ 86399 := by
  unfold fileGrid at hx
  have hx2 := List.mem_of_mem_take hx
  simp only [List.mem_map, List.mem_range] at hx2
  obtain ⟨k, hk, rfl⟩ := hx2
  unfold dayTicks at hk
  have hk2 : k ≤ 86399 / f := by omega
  calc k * f ≤ 86399 / f * f := Nat.mul_le_mul_right f hk2
    _ ≤ 86399 := Nat.div_mul_le_self _ _

lemma fileGrid_pairwise (f num : Nat) (hf : 1 ≤ f) :
    List.Pairwise (· < ·) (fileGrid f num) := by
  unfold fileGrid
  refine List.Pairwise.sublist (List.take_sublist _ _) ?_
  rw [List.pairwise_map]
  refine (List.pairwise_lt_range _).imp ?_
  intro a b hab
  exact Nat.mul_lt_mul_of_lt_of_le hab (le_refl f) hf

lemma flatMap_enumFrom_lb (ds : List Date) (num f k : Nat) :
    ∀ b ∈ (List.enumFrom k ds).flatMap
        (fun p => (fileGrid f num).map (· + 86400 * p.1)), 86400 * k ≤ b := by
  intro b hb
  simp only [List.mem_flatMap, List.mem_map] at hb
  obtain ⟨p, hp, s, hs, rfl⟩ := hb
  have h1 : k ≤ p.1 := by
    have h2 := @List.mem_enumFrom _ p.2 p.1 k ds (by simpa using hp)
    exact h2.1
  have h3 : 86400 * k ≤ 86400 * p.1 := Nat.mul_le_mul_left _ h1
  omega

lemma uts_pairwise (num f : Nat) (hf : 1 ≤ f) :
    ∀ (ds : List Date) (k : Nat),
      List.Pairwise (· < ·) ((List.enumFrom k ds).flatMap
        (fun p => (fileGrid f num).map (· + 86400 * p.1))) := by
  intro ds
  induction ds with
  | nil => intro k; simp
  | cons d rest ih =>
      intro k
      rw [show List.enumFrom k (d :: rest) =
        (k, d) :: List.enumFrom (k + 1) rest from rfl]
      rw [List.flatMap_cons, List.pairwise_append]
      refine ⟨?_, ih (k + 1), ?_⟩
      · rw [List.pairwise_map]
        exact (fileGrid_pairwise f num hf).imp (fun hab => by omega)
      · intro a ha b hb
        simp only [List.mem_map] at ha
        obtain ⟨s, hs, rfl⟩ := ha
        have h1 : s ≤ 86399 := mem_fileGrid_le hf hs
        have h2 := flatMap_enumFrom_lb rest num f (k + 1) b hb
        omega

lemma flatMap_const_length {β γ : Type} (l : List β) (g : β → List γ) (c : Nat)
    (h : ∀ b, (g b).length = c) : (l.flatMap g).length = l.length * c := by
  induction l with
  | nil => simp
  | cons x xs ih =>
      rw [List.flatMap_cons, List.length_append, ih, h]
      simp [List.length_cons]
      ring

/-- C5: on `N` date-encoded single-day filenames with cap `M` and
whole-second frequency `f`, `generate_times` produces
`N * min M (ticks f)` samples (at most `N*M`, exactly `N*M` when the daily
grid has at least `M` ticks), concatenated in filename order, where each
sample's elapsed-seconds value is its second-of-day plus `86400` times its
file's position, so the elapsed-seconds array is strictly increasing, in
particular across file boundaries. -/
theorem generate_times_counts (fnames : List String) (ds : List Date)
    (num f : Nat) (hf : 1 ≤ f)
    (hparse : fnames.mapM parseFnameDate = some ds) :
    ∃ uts idx, generate_times_core fnames num f = some (uts, idx, ds) ∧
      uts = (List.enumFrom 0 ds).flatMap
        (fun p => (fileGrid f num).map (· + 86400 * p.1)) ∧
      uts.length = fnames.length * min num (dayTicks f) ∧
      uts.length ≤ fnames.length * num ∧
      (num ≤ dayTicks f → uts.length = fnames.length * num) ∧
      List.Pairwise (· < ·) uts := by
  have hcore := gtAux_eq num f fnames ds 0 hparse
  have hlen : ds.length = fnames.length := mapM_parse_length fnames ds hparse
  refine ⟨_, _, hcore, rfl, ?_, ?_, ?_, uts_pairwise num f hf ds 0⟩
  · rw [flatMap_const_length _ _ (min num (dayTicks f))
      (fun p => by rw [List.length_map, fileGrid_length])]
    rw [List.enumFrom_length, hlen]
  · rw [flatMap_const_length _ _ (min num (dayTicks f))
      (fun p => by rw [List.length_map, fileGrid_length])]
    rw [List.enumFrom_length, hlen]
    exact Nat.mul_le_mul_left _ (Nat.min_le_left _ _)
  · intro hle
    rw [flatMap_const_length _ _ (min num (dayTicks f))
      (fun p => by rw [List.length_map, fileGrid_length])]
    rw [List.enumFrom_length, hlen, Nat.min_eq_left hle]

/-- Witness for C5: two consecutive daily files, frequency 43200 s (two
ticks per day), cap 3: each file contributes `min 3 2 = 2` samples. -/
theorem generate_times_counts_witness :
    1 ≤ 43200 ∧
    (["2009-01-01.nofile", "2009-01-02.nofile"].mapM parseFnameDate =
      some [⟨2009, 1, 1⟩, ⟨2009, 1, 2⟩]) ∧
    ∃ uts idx, generate_times_core ["2009-01-01.nofile", "2009-01-02.nofile"]
        3 43200 = some (uts, idx, [⟨2009, 1, 1⟩, ⟨2009, 1, 2⟩]) ∧
      uts = (List.enumFrom 0 [(⟨2009, 1, 1⟩ : Date), ⟨2009, 1, 2⟩]).flatMap
        (fun p => (fileGrid 43200 3).map (· + 86400 * p.1)) ∧
      uts.length = 2 * min 3 (dayTicks 43200) ∧
      uts.length ≤ 2 * 3 ∧
      (3 ≤ dayTicks 43200 → uts.length = 2 * 3) ∧
      List.Pairwise (· < ·) uts := by
  have h := generate_times_counts ["2009-01-01.nofile", "2009-01-02.nofile"]
    [⟨2009, 1, 1⟩, ⟨2009, 1, 2⟩] 3 43200 (by decide) (by decide)
  exact ⟨by decide, by decide, h⟩

/-- C10: for every non-negative integer count and parseable filenames, the
elapsed-seconds array and timestamp index have equal length, the date list
is exactly the parsed dates in input order (one per filename), and each
file contributes exactly `min count (ticks f)` entries to both arrays. -/
theorem generate_times_lengths (fnames : List String) (ds : List Date)
    (num f : Nat)
    (hparse : fnames.mapM parseFnameDate = some ds) :
    ∃ uts idx, generate_times_core fnames num f = some (uts, idx, ds) ∧
      uts.length = idx.length ∧
      ds.length = fnames.length ∧
      uts = (List.enumFrom 0 ds).flatMap
        (fun p => (fileGrid f num).map (· + 86400 * p.1)) ∧
      idx = ds.flatMap (fun d => (fileGrid f num).map (fun s => (d, s))) ∧
      (fileGrid f num).length = min num (dayTicks f) := by
  have hcore := gtAux_eq num f fnames ds 0 hparse
  have hlen : ds.length = fnames.length := mapM_parse_length fnames ds hparse
  refine ⟨_, _, hcore, ?_, hlen, rfl, rfl, fileGrid_length f num⟩
  rw [flatMap_const_length _ _ (min num (dayTicks f))
      (fun p => by rw [List.length_map, fileGrid_length]),
    flatMap_const_length _ _ (min num (dayTicks f))
      (fun p => by rw [List.length_map, fileGrid_length]),
    List.enumFrom_length]

/-- Witness for C10 on a single filename with the `load` parameters
(`num_samples=864`, 100-second frequency). -/
theorem generate_times_lengths_witness :
    (["2009-01-01.nofile"].mapM parseFnameDate = some [⟨2009, 1, 1⟩]) ∧
    ∃ uts idx, generate_times_core ["2009-01-01.nofile"] 864 100 =
        some (uts, idx, [⟨2009, 1, 1⟩]) ∧
      uts.length = idx.length ∧
      ([(⟨2009, 1, 1⟩ : Date)]).length = ["2009-01-01.nofile"].length ∧
      uts = (List.enumFrom 0 [(⟨2009, 1, 1⟩ : Date)]).flatMap
        (fun p => (fileGrid 100 864).map (· + 86400 * p.1)) ∧
      idx = ([(⟨2009, 1, 1⟩ : Date)]).flatMap
        (fun d => (fileGrid 100 864).map (fun s => (d, s))) ∧
      (fileGrid 100 864).length = min 864 (dayTicks 100) := by
  have h := generate_times_lengths ["2009-01-01.nofile"] [⟨2009, 1, 1⟩]
    864 100 (by decide)
  exact ⟨by decide, h⟩

/-- C8: a textual `num` issues the deprecation advisory, but the code never
coerces it (`num = int(num)` is absent), so the subsequent slice
`index[0:num]` fails instead of reproducing the numeric-count result: the
call errors where the equivalent integer call succeeds. -/
theorem generate_times_str_num (fnames : List String) (s : String) (f : Nat) :
    generate_times fnames (NumArg.str s) f = (true, none) ∧
    (∀ n : Nat, generate_times fnames (NumArg.int n) f =
      (false, generate_times_core fnames n f)) :=
  ⟨rfl, fun _ => rfl⟩

/-- Evaluation of C8 at the failing input: `num='5'` on one valid filename
warns and fails, while `num=5` succeeds. -/
theorem generate_times_str_num_eval :
    generate_times ["2009-01-01.nofile"] (NumArg.str "5") 43200 =
      (true, none) ∧
    (generate_times ["2009-01-01.nofile"] (NumArg.int 5) 43200).2.isSome :=
  ⟨rfl, by decide⟩

end Times

section Load

/-- `dates[0] - dt.datetime(2009, 1, 1)` as total seconds (the orbit-origin
offset of `load`). -/
def timeDelta (d : Date) : ℤ :=
  86400 * ((rataDie d : ℤ) - (rataDie ⟨2009, 1, 1⟩ : ℤ))

/-- Python's simultaneous slice swap
`index[0:3], index[3:6] = index[3:6], index[0:3]`. -/
def swapBlocks {β : Type} (l : List β) : List β :=
  (l.drop 3).take 3 ++ l.take 3 ++ l.drop 6

/-- `index[6:9] = [index[6]] * 3`, reading position 6 after the swap
(which leaves it unchanged). -/
def dupSix {β : Type} [Inhabited β] (l : List β) : List β :=
  l.take 6 ++ List.replicate 3 (l.getD 6 default) ++ l.drop 9

/-- The malformed-index corruption of `load`: the non-monotonic swap runs
first, then the non-unique triplication. -/
def malformIndex {β : Type} [Inhabited β] (l : List β) : List β :=
  dupSix (swapBlocks l)

lemma malformIndex_cons {β : Type} [Inhabited β]
    (x0 x1 x2 x3 x4 x5 x6 x7 x8 : β) (tail : List β) :
    malformIndex (x0::x1::x2::x3::x4::x5::x6::x7::x8::tail) =
      x3::x4::x5::x0::x1::x2::x6::x6::x6::tail := rfl

lemma exists_nine_cons {β : Type} (l : List β) (h : 9 ≤ l.length) :
    ∃ x0 x1 x2 x3 x4 x5 x6 x7 x8 tail,
      l = x0::x1::x2::x3::x4::x5::x6::x7::x8::tail := by
  rcases l with _|⟨x0,_|⟨x1,_|⟨x2,_|⟨x3,_|⟨x4,_|⟨x5,_|⟨x6,_|⟨x7,_|⟨x8,tail⟩⟩⟩⟩⟩⟩⟩⟩⟩ <;>
    first
      | exact ⟨_, _, _, _, _, _, _, _, _, _, rfl⟩
      | (exfalso; simp at h)

lemma malformIndex_spec {β : Type} [Inhabited β] (l : List β)
    (h : 9 ≤ l.length) :
    (malformIndex l).length = l.length ∧
    (malformIndex l).take 3 = (l.drop 3).take 3 ∧
    ((malformIndex l).drop 3).take 3 = l.take 3 ∧
    ((malformIndex l).drop 6).take 3 = List.replicate 3 (l.getD 6 default) ∧
    (malformIndex l).drop 9 = l.drop 9 := by
  obtain ⟨x0, x1, x2, x3, x4, x5, x6, x7, x8, tail, rfl⟩ := exists_nine_cons l h
  refine ⟨?_, rfl, rfl, rfl, rfl⟩
  rw [malformIndex_cons]
  simp

/-- The data variables assembled by the `pysat_testing2d_xarray` `load`:
1-D signals, the constant altitude, the integer-bucketed dummies, and the
broadcast 2-D/3-D arrays, all along the same time axis. -/
structure LoadData where
  uts : List Nat
  index : List (Date × Nat)
  mlt : List ℝ
  slt : List ℝ
  longitude : List ℝ
  latitude : List ℝ
  altitude : List ℝ
  dummy1 : List ℤ
  dummy2 : List ℤ
  dummy3 : List ℝ
  dummy4 : List Nat
  profiles : List (List ℝ)
  images : List (List (List ℝ))

/-- Modelled from the spec: `initialize_test_meta` is called by `load` but
is absent from the excerpted `methods/testing.py`; per the spec the load
routine returns "(data, metadata)" with metadata carrying the epoch
coordinate name and the variable set. -/
structure Meta where
  epoch : String
  vars : List String
deriving DecidableEq

/-- Modelled from the spec: builds the metadata for the epoch name and the
dataset's variables. -/
def initialize_test_meta (epoch : String) (vars : List String) : Meta :=
  ⟨epoch, vars⟩

/-- The dataset assembly of `load`, given the generated `uts`, the (possibly
corrupted) index, and the first file date `d0`.  `time_delta` is
`dates[0] - dt.datetime(2009, 1, 1)`; `mlt` and `slt` are cyclic signals of
period `define_period['lt'] = 5820` over `[0, 24)` with `slt`'s origin
offset by 20 seconds; `longitude` has period 6240 over `[0, 360)`;
`latitude = 90 * cos(angle)` for the cyclic `angle` of period 5820 over
`[0, 2*pi)`; `altitude` is constant 400; `dummy1 = mlt.astype(int)`,
`dummy2 = (longitude/15).astype(int)`, `dummy3 = dummy1 + 1000*dummy2`,
`dummy4 = uts`; profiles/images broadcast `dummy3` along the synthetic
spatial axes. -/
noncomputable def loadData (uts : List Nat) (index : List (Date × Nat))
    (d0 : Date) : LoadData :=
  let td : ℝ := (timeDelta d0 : ℝ)
  let utsR : List ℝ := List.map (fun u : Nat => (u : ℝ)) uts
  let mlt := fakeDataCyclic td utsR 5820 0 24
  let slt := fakeDataCyclic (td + 20) utsR 5820 0 24
  let longitude := fakeDataCyclic td utsR 6240 0 360
  let angle := fakeDataCyclic td utsR 5820 0 (2 * Real.pi)
  let latitude := angle.map (fun a => 90 * Real.cos a)
  let altitude := latitude.map (fun _ => (400 : ℝ))
  let dummy1 := mlt.map truncInt
  let dummy2 := longitude.map (fun x => truncInt (x / 15))
  let dummy3 := (dummy1.zip dummy2).map
    (fun p => (p.1 : ℝ) + (p.2 : ℝ) * 1000)
  let dummy4 := uts
  let profiles := dummy3.map (fun v => List.replicate 15 v)
  let images := dummy3.map (fun v => List.replicate 17 (List.replicate 17 v))
  ⟨uts, index, mlt, slt, longitude, latitude, altitude,
    dummy1, dummy2, dummy3, dummy4, profiles, images⟩

/-- The metadata argument of the `load` return. -/
def loadMeta : Meta :=
  initialize_test_meta "time"
    ["uts", "mlt", "slt", "longitude", "latitude", "altitude",
     "dummy1", "dummy2", "dummy3", "dummy4", "profiles", "images"]

/-- `load` from `pysat/instruments/pysat_testing2d_xarray.py`.

The source calls `generate_times(fnames, num_samples, freq='100S',
start_time=start_time)`; the excerpted `generate_times` has no
`start_time` parameter (that richer signature is not in the excerpt), so
the default `start_time=None` call is modelled from the spec (§4.3) as the
plain day-grid enumeration `generate_times_core` at 100-second frequency.
With `malformed_index=True` the index — and only the index — is corrupted
by `malformIndex` before the dataset is assembled. -/
noncomputable def load (fnames : List String) (malformed_index : Bool)
    (num_samples : Nat) : Option (LoadData × Meta) :=
  match generate_times_core fnames num_samples 100 with
  | none => none
  | some (uts, index0, dates) =>
      match dates.head? with
      | none => none
      | some d0 =>
          some (loadData uts
            (if malformed_index then malformIndex index0 else index0) d0,
            loadMeta)

lemma load_eq (fnames : List String) (mi : Bool) (ns : Nat)
    (uts : List Nat) (index0 : List (Date × Nat)) (dates : List Date)
    (d0 : Date)
    (hcore : generate_times_core fnames ns 100 = some (uts, index0, dates))
    (hd0 : dates.head? = some d0) :
    load fnames mi ns =
      some (loadData uts (if mi then malformIndex index0 else index0) d0,
        loadMeta) := by
  unfold load
  rw [hcore]
  dsimp only
  rw [hd0]

lemma gtAux_lengths (num f : Nat) :
    ∀ (fnames : List String) (k : Nat) (uts : List Nat)
      (idx : List (Date × Nat)) (ds : List Date),
      gtAux num f fnames k = some (uts, idx, ds) →
      uts.length = idx.length ∧ ds.length = fnames.length := by
  intro fnames
  induction fnames with
  | nil =>
      intro k uts idx ds h
      simp only [gtAux, Option.some.injEq, Prod.mk.injEq] at h
      obtain ⟨h1, h2, h3⟩ := h
      subst h1; subst h2; subst h3
      exact ⟨rfl, rfl⟩
  | cons fn rest ih =>
      intro k uts idx ds h
      rw [show gtAux num f (fn :: rest) k =
          match parseFnameDate fn with
          | none => none
          | some d =>
              match gtAux num f rest (k + 1) with
              | none => none
              | some (uts, idx, ds) =>
                  some ((fileGrid f num).map (· + 86400 * k) ++ uts,
                        (fileGrid f num).map (fun s => (d, s)) ++ idx,
                        d :: ds) from rfl] at h
      cases hp : parseFnameDate fn with
      | none => rw [hp] at h; simp at h
      | some d =>
          rw [hp] at h
          cases hr : gtAux num f rest (k + 1) with
          | none => rw [hr] at h; simp at h
          | some t =>
              obtain ⟨uts1, idx1, ds1⟩ := t
              rw [hr] at h
              simp only [Option.some.injEq, Prod.mk.injEq] at h
              obtain ⟨h1, h2, h3⟩ := h
              subst h1; subst h2; subst h3
              have hih := ih (k + 1) uts1 idx1 ds1 hr
              constructor
              · simp only [List.length_append, List.length_map, hih.1]
              · simp only [List.length_cons, hih.2]

/-- C6: with `malformed_index=True` and an index of at least 9 samples,
the returned index is the corrupted one: positions [0,3) hold the original
[3,6) block and vice versa, positions [6,9) hold three copies of the
original position 6, every later position is unchanged, the length is
preserved — and the parallel `uts` array is exactly the uncorrupted array,
identical to the `malformed_index=False` run. -/
theorem load_malformed_index (fnames : List String) (uts : List Nat)
    (index0 : List (Date × Nat)) (dates : List Date) (d0 : Date)
    (num_samples : Nat)
    (hcore : generate_times_core fnames num_samples 100 =
      some (uts, index0, dates))
    (hd0 : dates.head? = some d0)
    (hlen : 9 ≤ index0.length) :
    ∃ out meta, load fnames true num_samples = some (out, meta) ∧
      out.index = malformIndex index0 ∧
      out.index.length = index0.length ∧
      out.index.take 3 = (index0.drop 3).take 3 ∧
      (out.index.drop 3).take 3 = index0.take 3 ∧
      (out.index.drop 6).take 3 = List.replicate 3 (index0.getD 6 default) ∧
      out.index.drop 9 = index0.drop 9 ∧
      out.uts = uts ∧
      (load fnames false num_samples).map (fun p => p.1.uts) = some uts ∧
      (load fnames false num_samples).map (fun p => p.1.index) = some index0 := by
  have hspec := malformIndex_spec index0 hlen
  have htrue := load_eq fnames true num_samples uts index0 dates d0 hcore hd0
  have hfalse := load_eq fnames false num_samples uts index0 dates d0 hcore hd0
  rw [if_pos rfl] at htrue
  rw [if_neg (by simp)] at hfalse
  refine ⟨_, _, htrue, rfl, hspec.1, hspec.2.1, hspec.2.2.1, hspec.2.2.2.1,
    hspec.2.2.2.2, rfl, ?_, ?_⟩
  · rw [hfalse]; rfl
  · rw [hfalse]; rfl

set_option maxRecDepth 8000

/-- Witness for C6: one file, nine 100-second samples; the corrupted index
swaps the first two 3-blocks and triplicates the original position 6,
while `uts` stays `[0, 100, ..., 800]`. -/
theorem load_malformed_index_witness :
    (generate_times_core ["2009-01-01.nofile"] 9 100 =
      some ([0, 100, 200, 300, 400, 500, 600, 700, 800],
        [(⟨2009, 1, 1⟩, 0), (⟨2009, 1, 1⟩, 100), (⟨2009, 1, 1⟩, 200),
         (⟨2009, 1, 1⟩, 300), (⟨2009, 1, 1⟩, 400), (⟨2009, 1, 1⟩, 500),
         (⟨2009, 1, 1⟩, 600), (⟨2009, 1, 1⟩, 700), (⟨2009, 1, 1⟩, 800)],
        [⟨2009, 1, 1⟩])) ∧
    ∃ out meta, load ["2009-01-01.nofile"] true 9 = some (out, meta) ∧
      out.index = malformIndex
        [(⟨2009, 1, 1⟩, 0), (⟨2009, 1, 1⟩, 100), (⟨2009, 1, 1⟩, 200),
         (⟨2009, 1, 1⟩, 300), (⟨2009, 1, 1⟩, 400), (⟨2009, 1, 1⟩, 500),
         (⟨2009, 1, 1⟩, 600), (⟨2009, 1, 1⟩, 700), (⟨2009, 1, 1⟩, 800)] ∧
      out.index.length =
        ([(⟨2009, 1, 1⟩, 0), (⟨2009, 1, 1⟩, 100), (⟨2009, 1, 1⟩, 200),
          (⟨2009, 1, 1⟩, 300), (⟨2009, 1, 1⟩, 400), (⟨2009, 1, 1⟩, 500),
          (⟨2009, 1, 1⟩, 600), (⟨2009, 1, 1⟩, 700), (⟨2009, 1, 1⟩, 800)] :
            List (Date × Nat)).length ∧
      out.index.take 3 = (([(⟨2009, 1, 1⟩, 0), (⟨2009, 1, 1⟩, 100),
          (⟨2009, 1, 1⟩, 200), (⟨2009, 1, 1⟩, 300), (⟨2009, 1, 1⟩, 400),
          (⟨2009, 1, 1⟩, 500), (⟨2009, 1, 1⟩, 600), (⟨2009, 1, 1⟩, 700),
          (⟨2009, 1, 1⟩, 800)] : List (Date × Nat)).drop 3).take 3 ∧
      (out.index.drop 3).take 3 = ([(⟨2009, 1, 1⟩, 0), (⟨2009, 1, 1⟩, 100),
          (⟨2009, 1, 1⟩, 200), (⟨2009, 1, 1⟩, 300), (⟨2009, 1, 1⟩, 400),
          (⟨2009, 1, 1⟩, 500), (⟨2009, 1, 1⟩, 600), (⟨2009, 1, 1⟩, 700),
          (⟨2009, 1, 1⟩, 800)] : List (Date × Nat)).take 3 ∧
      (out.index.drop 6).take 3 = List.replicate 3
        (([(⟨2009, 1, 1⟩, 0), (⟨2009, 1, 1⟩, 100), (⟨2009, 1, 1⟩, 200),
          (⟨2009, 1, 1⟩, 300), (⟨2009, 1, 1⟩, 400), (⟨2009, 1, 1⟩, 500),
          (⟨2009, 1, 1⟩, 600), (⟨2009, 1, 1⟩, 700), (⟨2009, 1, 1⟩, 800)] :
            List (Date × Nat)).getD 6 default) ∧
      out.index.drop 9 = ([(⟨2009, 1, 1⟩, 0), (⟨2009, 1, 1⟩, 100),
          (⟨2009, 1, 1⟩, 200), (⟨2009, 1, 1⟩, 300), (⟨2009, 1, 1⟩, 400),
          (⟨2009, 1, 1⟩, 500), (⟨2009, 1, 1⟩, 600), (⟨2009, 1, 1⟩, 700),
          (⟨2009, 1, 1⟩, 800)] : List (Date × Nat)).drop 9 ∧
      out.uts = [0, 100, 200, 300, 400, 500, 600, 700, 800] ∧
      (load ["2009-01-01.nofile"] false 9).map (fun p => p.1.uts) =
        some [0, 100, 200, 300, 400, 500, 600, 700, 800] ∧
      (load ["2009-01-01.nofile"] false 9).map (fun p => p.1.index) =
        some [(⟨2009, 1, 1⟩, 0), (⟨2009, 1, 1⟩, 100), (⟨2009, 1, 1⟩, 200),
         (⟨2009, 1, 1⟩, 300), (⟨2009, 1, 1⟩, 400), (⟨2009, 1, 1⟩, 500),
         (⟨2009, 1, 1⟩, 600), (⟨2009, 1, 1⟩, 700), (⟨2009, 1, 1⟩, 800)] := by
  have h := load_malformed_index ["2009-01-01.nofile"]
    [0, 100, 200, 300, 400, 500, 600, 700, 800]
    [(⟨2009, 1, 1⟩, 0), (⟨2009, 1, 1⟩, 100), (⟨2009, 1, 1⟩, 200),
     (⟨2009, 1, 1⟩, 300), (⟨2009, 1, 1⟩, 400), (⟨2009, 1, 1⟩, 500),
     (⟨2009, 1, 1⟩, 600), (⟨2009, 1, 1⟩, 700), (⟨2009, 1, 1⟩, 800)]
    [⟨2009, 1, 1⟩] ⟨2009, 1, 1⟩ 9 (by decide) rfl (by decide)
  exact ⟨by decide, h⟩

lemma loadData_lengths (uts : List Nat) (index : List (Date × Nat))
    (d0 : Date) :
    (loadData uts index d0).mlt.length = uts.length ∧
    (loadData uts index d0).slt.length = uts.length ∧
    (loadData uts index d0).longitude.length = uts.length ∧
    (loadData uts index d0).latitude.length = uts.length ∧
    (loadData uts index d0).altitude.length = uts.length ∧
    (loadData uts index d0).dummy1.length = uts.length ∧
    (loadData uts index d0).dummy2.length = uts.length ∧
    (loadData uts index d0).dummy3.length = uts.length ∧
    (loadData uts index d0).dummy4.length = uts.length ∧
    (loadData uts index d0).profiles.length = uts.length ∧
    (loadData uts index d0).images.length = uts.length := by
  refine ⟨?_, ?_, ?_, ?_, ?_, ?_, ?_, ?_, ?_, ?_, ?_⟩ <;>
    simp only [loadData, fakeDataCyclic, List.length_map, List.length_zip,
      Nat.min_self]

/-- C7: `load` composes its dataset from `generate_times` (the sample
index and elapsed-seconds array), `generate_fake_data` (the `mlt` and
`slt` local-time signals, `slt`'s origin offset by exactly 20 seconds from
`mlt`'s, and the longitude signal), and `latitude = 90 * cos(angle)`
sample-wise; every field has the same length as the sample index serving
as the time axis, and the metadata names the epoch and the variables. -/
theorem load_composition (fnames : List String) (uts : List Nat)
    (index0 : List (Date × Nat)) (dates : List Date) (d0 : Date)
    (num_samples : Nat)
    (hcore : generate_times_core fnames num_samples 100 =
      some (uts, index0, dates))
    (hd0 : dates.head? = some d0) :
    ∃ out meta, load fnames false num_samples = some (out, meta) ∧
      out.uts = uts ∧
      out.index = index0 ∧
      out.mlt = fakeDataCyclic ((timeDelta d0 : ℝ))
        (List.map (fun u : Nat => (u : ℝ)) uts) 5820 0 24 ∧
      out.slt = fakeDataCyclic ((timeDelta d0 : ℝ) + 20)
        (List.map (fun u : Nat => (u : ℝ)) uts) 5820 0 24 ∧
      out.longitude = fakeDataCyclic ((timeDelta d0 : ℝ))
        (List.map (fun u : Nat => (u : ℝ)) uts) 6240 0 360 ∧
      out.latitude = (fakeDataCyclic ((timeDelta d0 : ℝ))
        (List.map (fun u : Nat => (u : ℝ)) uts) 5820 0 (2 * Real.pi)).map
          (fun a => 90 * Real.cos a) ∧
      meta = initialize_test_meta "time"
        ["uts", "mlt", "slt", "longitude", "latitude", "altitude",
         "dummy1", "dummy2", "dummy3", "dummy4", "profiles", "images"] ∧
      out.uts.length = out.index.length ∧
      out.mlt.length = out.index.length ∧
      out.slt.length = out.index.length ∧
      out.longitude.length = out.index.length ∧
      out.latitude.length = out.index.length ∧
      out.altitude.length = out.index.length ∧
      out.dummy1.length = out.index.length ∧
      out.dummy2.length = out.index.length ∧
      out.dummy3.length = out.index.length ∧
      out.dummy4.length = out.index.length ∧
      out.profiles.length = out.index.length ∧
      out.images.length = out.index.length := by
  have hfalse := load_eq fnames false num_samples uts index0 dates d0 hcore hd0
  rw [if_neg (by simp)] at hfalse
  have hlen : uts.length = index0.length :=
    (gtAux_lengths num_samples 100 fnames 0 uts index0 dates hcore).1
  have hl := loadData_lengths uts index0 d0
  refine ⟨_, _, hfalse, rfl, rfl, rfl, rfl, rfl, rfl, rfl, hlen,
    hl.1.trans hlen, hl.2.1.trans hlen, hl.2.2.1.trans hlen,
    hl.2.2.2.1.trans hlen, hl.2.2.2.2.1.trans hlen,
    hl.2.2.2.2.2.1.trans hlen, hl.2.2.2.2.2.2.1.trans hlen,
    hl.2.2.2.2.2.2.2.1.trans hlen, hl.2.2.2.2.2.2.2.2.1.trans hlen,
    hl.2.2.2.2.2.2.2.2.2.1.trans hlen, hl.2.2.2.2.2.2.2.2.2.2.trans hlen⟩

/-- Witness for C7: one file of the 2009-01-01 day at two 100-second
samples. -/
theorem load_composition_witness :
    (generate_times_core ["2009-01-01.nofile"] 2 100 =
      some ([0, 100], [(⟨2009, 1, 1⟩, 0), (⟨2009, 1, 1⟩, 100)],
        [⟨2009, 1, 1⟩])) ∧
    ∃ out meta, load ["2009-01-01.nofile"] false 2 = some (out, meta) ∧
      out.uts = [0, 100] ∧
      out.index = [(⟨2009, 1, 1⟩, 0), (⟨2009, 1, 1⟩, 100)] ∧
      out.mlt = fakeDataCyclic ((timeDelta ⟨2009, 1, 1⟩ : ℝ))
        (List.map (fun u : Nat => (u : ℝ)) [0, 100]) 5820 0 24 ∧
      out.slt = fakeDataCyclic ((timeDelta ⟨2009, 1, 1⟩ : ℝ) + 20)
        (List.map (fun u : Nat => (u : ℝ)) [0, 100]) 5820 0 24 ∧
      out.longitude = fakeDataCyclic ((timeDelta ⟨2009, 1, 1⟩ : ℝ))
        (List.map (fun u : Nat => (u : ℝ)) [0, 100]) 6240 0 360 ∧
      out.latitude = (fakeDataCyclic ((timeDelta ⟨2009, 1, 1⟩ : ℝ))
        (List.map (fun u : Nat => (u : ℝ)) [0, 100]) 5820 0
          (2 * Real.pi)).map (fun a => 90 * Real.cos a) ∧
      meta = initialize_test_meta "time"
        ["uts", "mlt", "slt", "longitude", "latitude", "altitude",
         "dummy1", "dummy2", "dummy3", "dummy4", "profiles", "images"] ∧
      out.uts.length = out.index.length ∧
      out.mlt.length = out.index.length ∧
      out.slt.length = out.index.length ∧
      out.longitude.length = out.index.length ∧
      out.latitude.length = out.index.length ∧
      out.altitude.length = out.index.length ∧
      out.dummy1.length = out.index.length ∧
      out.dummy2.length = out.index.length ∧
      out.dummy3.length = out.index.length ∧
      out.dummy4.length = out.index.length ∧
      out.profiles.length = out.index.length ∧
      out.images.length = out.index.length := by
  have h := load_composition ["2009-01-01.nofile"] [0, 100]
    [(⟨2009, 1, 1⟩, 0), (⟨2009, 1, 1⟩, 100)] [⟨2009, 1, 1⟩] ⟨2009, 1, 1⟩ 2
    (by decide) rfl
  exact ⟨by decide, h⟩

end Load


section Download

/-- Outcome of one FTP `retrbinary` fetch as seen by the `download` date
loop: success, an `ftplib.error_perm` carrying its message (whose first
three characters are the FTP reply code), or any other transport error. -/
inductive FetchResult where
  | ok
  | permError (msg : String)
  | otherError (msg : String)
deriving DecidableEq

/-- An exception propagating out of the download loop, carrying the
original message unchanged. -/
inductive DownloadError where
  | perm (msg : String)
  | other (msg : String)
deriving DecidableEq

/-- Per-date log of the loop: a completed download, or the 550 skip path
(file removed, "File not available" printed, loop continues). -/
inductive Event where
  | downloaded (d : Date)
  | skippedMissing (d : Date)
deriving DecidableEq

/-- Local-filesystem and log state: `present` holds the dates whose local
file currently exists — `open(saved_local_fname, 'w')` creates it before
the fetch, and `os.remove` deletes it on the 550 path. -/
structure DLState where
  present : List Date
  events : List Event
deriving DecidableEq

/-- The date loop of `download` from
`pysat/instruments/nasa_cdaweb_methods.py`.  For each date the local file
is created by `open(..., 'w')`, then `retrbinary` runs inside
`try/except ftplib.error_perm`: on success the loop continues; on an
`error_perm` whose message starts with '550' (`exception[0][0:3]`,
Python-2-era message indexing) the routine itself removes the partial
local file, prints a message, and continues; on any other `error_perm`
the bare `raise` re-raises it, and any non-`error_perm` exception is
uncaught — either way the error propagates unchanged, later dates are not
processed, no retry happens, and the partial local file stays behind. -/
def downloadLoop (fetch : Date → FetchResult) :
    List Date → DLState → DLState × Option DownloadError
  | [], st => (st, none)
  | d :: rest, st =>
      let created := st.present ++ [d]
      match fetch d with
      | FetchResult.ok =>
          downloadLoop fetch rest
            ⟨created, st.events ++ [Event.downloaded d]⟩
      | FetchResult.permError msg =>
          if msg.toList.take 3 ≠ ['5', '5', '0'] then
            (⟨created, st.events⟩, some (DownloadError.perm msg))
          else
            downloadLoop fetch rest
              ⟨st.present, st.events ++ [Event.skippedMissing d]⟩
      | FetchResult.otherError msg =>
          (⟨created, st.events⟩, some (DownloadError.other msg))

/-- `download`, run over the provided `date_array` with an empty initial
local state. -/
def download (fetch : Date → FetchResult) (dates : List Date) :
    DLState × Option DownloadError :=
  downloadLoop fetch dates ⟨[], []⟩

lemma downloadLoop_cons (fetch : Date → FetchResult) (d : Date)
    (rest : List Date) (st : DLState) :
    downloadLoop fetch (d :: rest) st =
      match fetch d with
      | FetchResult.ok =>
          downloadLoop fetch rest
            ⟨st.present ++ [d], st.events ++ [Event.downloaded d]⟩
      | FetchResult.permError msg =>
          if msg.toList.take 3 ≠ ['5', '5', '0'] then
            (⟨st.present ++ [d], st.events⟩, some (DownloadError.perm msg))
          else
            downloadLoop fetch rest
              ⟨st.present, st.events ++ [Event.skippedMissing d]⟩
      | FetchResult.otherError msg =>
          (⟨st.present ++ [d], st.events⟩, some (DownloadError.other msg)) := rfl

/-- C9 counterexample to "the routine itself does not clean up": after a
550-class failure the routine has already removed the partial local file
it created (`os.remove` runs on this path), so no file is left for the
caller; on a non-FTP-perm transport error the partial file does remain. -/
theorem download_cleanup_cex :
    (download (fun _ => FetchResult.permError "550 Failed to open file.")
      [⟨2009, 1, 1⟩]).1.present = [] ∧
    (download (fun _ => FetchResult.permError "550 Failed to open file.")
      [⟨2009, 1, 1⟩]).2 = none ∧
    (download (fun _ => FetchResult.otherError "connection reset")
      [⟨2009, 1, 1⟩]).1.present = [⟨2009, 1, 1⟩] := by
  refine ⟨by decide, by decide, by decide⟩

/-- C9 (amended): for every date in the loop, a fetch success appends the
file and continues; an `error_perm` whose code starts '550' is recovered
locally — the routine itself removes the partial local file, logs the
skip, and continues with the next date; an `error_perm` with any other
code, and any other transport error, is fatal: it propagates unchanged
(same message), the loop stops with no retry, and the partial local file
remains. -/
theorem download_date_loop (fetch : Date → FetchResult) (d : Date)
    (rest : List Date) (st : DLState) :
    (fetch d = FetchResult.ok →
      downloadLoop fetch (d :: rest) st =
        downloadLoop fetch rest
          ⟨st.present ++ [d], st.events ++ [Event.downloaded d]⟩) ∧
    (∀ msg, fetch d = FetchResult.permError msg →
      msg.toList.take 3 = ['5', '5', '0'] →
      downloadLoop fetch (d :: rest) st =
        downloadLoop fetch rest
          ⟨st.present, st.events ++ [Event.skippedMissing d]⟩) ∧
    (∀ msg, fetch d = FetchResult.permError msg →
      msg.toList.take 3 ≠ ['5', '5', '0'] →
      downloadLoop fetch (d :: rest) st =
        (⟨st.present ++ [d], st.events⟩, some (DownloadError.perm msg))) ∧
    (∀ msg, fetch d = FetchResult.otherError msg →
      downloadLoop fetch (d :: rest) st =
        (⟨st.present ++ [d], st.events⟩, some (DownloadError.other msg))) := by
  refine ⟨?_, ?_, ?_, ?_⟩
  · intro h
    rw [downloadLoop_cons, h]
  · intro msg h hmsg
    rw [downloadLoop_cons, h]
    dsimp only
    rw [if_neg (not_not_intro hmsg)]
  · intro msg h hmsg
    rw [downloadLoop_cons, h]
    dsimp only
    rw [if_pos hmsg]
  · intro msg h
    rw [downloadLoop_cons, h]

/-- A demonstration fetch oracle: day 1 succeeds, day 2 is missing on the
server (550), day 3 hits a permission failure (530), anything else a
transport error. -/
def fetchDemo : Date → FetchResult := fun d =>
  if d.day = 1 then FetchResult.ok
  else if d.day = 2 then FetchResult.permError "550 Failed to open file."
  else if d.day = 3 then FetchResult.permError "530 Login incorrect."
  else FetchResult.otherError "connection reset"

/-- Witness for the amended C9, exercising all four branches of the date
loop on `fetchDemo`. -/
theorem download_date_loop_witness :
    (downloadLoop fetchDemo [⟨2009, 1, 1⟩] ⟨[], []⟩ =
      downloadLoop fetchDemo [] ⟨[] ++ [⟨2009, 1, 1⟩],
        [] ++ [Event.downloaded ⟨2009, 1, 1⟩]⟩) ∧
    (downloadLoop fetchDemo [⟨2009, 1, 2⟩] ⟨[], []⟩ =
      downloadLoop fetchDemo [] ⟨[],
        [] ++ [Event.skippedMissing ⟨2009, 1, 2⟩]⟩) ∧
    (downloadLoop fetchDemo [⟨2009, 1, 3⟩] ⟨[], []⟩ =
      (⟨[] ++ [⟨2009, 1, 3⟩], []⟩,
        some (DownloadError.perm "530 Login incorrect."))) ∧
    (downloadLoop fetchDemo [⟨2009, 1, 4⟩] ⟨[], []⟩ =
      (⟨[] ++ [⟨2009, 1, 4⟩], []⟩,
        some (DownloadError.other "connection reset"))) := by
  refine ⟨?_, ?_, ?_, ?_⟩
  · exact (download_date_loop fetchDemo ⟨2009, 1, 1⟩ [] ⟨[], []⟩).1 rfl
  · exact (download_date_loop fetchDemo ⟨2009, 1, 2⟩ [] ⟨[], []⟩).2.1
      "550 Failed to open file." rfl (by decide)
  · exact (download_date_loop fetchDemo ⟨2009, 1, 3⟩ [] ⟨[], []⟩).2.2.1
      "530 Login incorrect." rfl (by decide)
  · exact (download_date_loop fetchDemo ⟨2009, 1, 4⟩ [] ⟨[], []⟩).2.2.2
      "connection reset" rfl

end Download
end Pysat
